import Mathlib

/-!
Shallow embedding of the connectivity core of the firezone client
(`rust/connlib`): the TURN allocation state machine (`snownet/src/allocation.rs`),
the connection-intent coordinator (`clients/shared/src/eventloop.rs`) and the
per-resource client state (`tunnel/src/client.rs`).

Conventions of the embedding:
* `Instant` and `Duration` are `Nat` (milliseconds).  Rust's
  `Instant::duration_since` saturates at zero, exactly like `Nat` subtraction.
* `HashMap` values are association lists with the operations used by the
  source (`get` is first-match lookup, `insert` replaces the binding).
  None of the verified claims depends on hash-iteration order.
* The random transaction id of `TransactionId::new(random())` is determinized
  by a fresh-id counter `nextId` threaded through `Allocation`; the source
  only relies on freshness of the ids.
* STUN messages are kept abstract (class, method, transaction id, attribute
  list) instead of byte strings; `buffered_transmits` stores the message that
  `encode` would serialize.  Channel-data framing is byte-level because the
  round-trip claim is about the frame itself.
-/

namespace Firezone

/-- Socket address; only the address family and identity matter to the code
under verification, so the address and port are collapsed into one `Nat`. -/
inductive SocketAddr where
  | v4 (addr : Nat)
  | v6 (addr : Nat)
deriving DecidableEq, Repr

/-- Mirrors `SocketAddr::is_ipv4`. -/
def SocketAddr.is_ipv4 : SocketAddr → Bool
  | .v4 _ => true
  | .v6 _ => false

/-- Mirrors `SocketAddr::is_ipv6`. -/
def SocketAddr.is_ipv6 : SocketAddr → Bool
  | .v4 _ => false
  | .v6 _ => true

/-- ICE candidate as used by `allocation.rs` (str0m `Candidate`): either a
server-reflexive candidate (observed address plus local base) or a relayed
candidate. -/
inductive Candidate where
  | serverReflexive (addr : SocketAddr) (base : SocketAddr)
  | relayed (addr : SocketAddr)
deriving DecidableEq, Repr

/-- Mirrors `Candidate::addr`. -/
def Candidate.addr : Candidate → SocketAddr
  | .serverReflexive a _ => a
  | .relayed a => a

/-- Mirrors `CandidateEvent` from `node.rs` (`New`/`Invalid`). -/
inductive CandidateEvent where
  | new (c : Candidate)
  | invalid (c : Candidate)
deriving DecidableEq, Repr

/-- STUN message class (RFC 5389). -/
inductive MessageClass where
  | request
  | successResponse
  | errorResponse
  | indication
deriving DecidableEq, Repr

/-- STUN method; the allocation only ever sends ALLOCATE, REFRESH and
CHANNEL_BIND, other methods are kept abstract for the wildcard match arms. -/
inductive StunMethod where
  | allocate
  | refresh
  | channelBind
  | other (code : Nat)
deriving DecidableEq, Repr

/-- Address family carried by `ADDITIONAL-ADDRESS-FAMILY` (RFC 8656). -/
inductive AddressFamily where
  | v4
  | v6
deriving DecidableEq, Repr

/-- The attribute enum defined by `define_attribute_enums!` in
`allocation.rs`.  `MESSAGE-INTEGRITY` records the long-term credential it was
computed over. -/
inductive Attribute where
  | requestedTransport (protocol : Nat)
  | additionalAddressFamily (family : AddressFamily)
  | errorCode (code : Nat)
  | nonce (value : String)
  | realm (value : String)
  | username (value : String)
  | messageIntegrity (username realm password : String)
  | xorMappedAddress (addr : SocketAddr)
  | xorRelayAddress (addr : SocketAddr)
  | xorPeerAddress (addr : SocketAddr)
  | channelNumber (number : Nat)
  | lifetime (duration : Nat)
deriving DecidableEq, Repr

/-- STUN message: class, method, transaction id and attributes, mirroring
`stun_codec::Message<Attribute>`. -/
structure StunMessage where
  cls : MessageClass
  method : StunMethod
  transactionId : Nat
  attributes : List Attribute
deriving DecidableEq, Repr

namespace StunMessage

/-- Mirrors `message.get_attribute::<Nonce>()`, first match wins. -/
def getNonce (m : StunMessage) : Option String :=
  m.attributes.findSome? fun a =>
    match a with
    | .nonce v => some v
    | _ => none

/-- Mirrors `message.get_attribute::<Realm>()`. -/
def getRealm (m : StunMessage) : Option String :=
  m.attributes.findSome? fun a =>
    match a with
    | .realm v => some v
    | _ => none

/-- Mirrors `message.get_attribute::<ErrorCode>()`. -/
def getErrorCode (m : StunMessage) : Option Nat :=
  m.attributes.findSome? fun a =>
    match a with
    | .errorCode v => some v
    | _ => none

/-- Mirrors `message.get_attribute::<ChannelNumber>().map(|c| c.value())`. -/
def getChannelNumber (m : StunMessage) : Option Nat :=
  m.attributes.findSome? fun a =>
    match a with
    | .channelNumber v => some v
    | _ => none

/-- Mirrors `message.get_attribute::<Lifetime>()`. -/
def getLifetime (m : StunMessage) : Option Nat :=
  m.attributes.findSome? fun a =>
    match a with
    | .lifetime v => some v
    | _ => none

/-- Mirrors `message.get_attribute::<XorPeerAddress>().map(|a| a.address())`. -/
def getXorPeerAddress (m : StunMessage) : Option SocketAddr :=
  m.attributes.findSome? fun a =>
    match a with
    | .xorPeerAddress v => some v
    | _ => none

end StunMessage

/-- Outbound datagram to the relay, mirroring `Transmit` (the `src` field is
always `None` in `allocation.rs` and is omitted). -/
structure Transmit where
  dst : SocketAddr
  payload : StunMessage
deriving DecidableEq, Repr

/-! ### Channel-data framing

Modelled from the spec: `channel_data.rs` is not part of the provided
sources.  Spec section 6 prescribes RFC 8656 channel-data framing for user
payload: a 4-byte header holding the 16-bit channel number and the 16-bit
payload length, followed by the payload. -/

namespace ChannelData

/-- Modelled from the spec: `channel_data::encode` frames `payload` with the
big-endian channel number and payload length. -/
def encode (channelNumber : Nat) (payload : List Nat) : List Nat :=
  [channelNumber / 256 % 256, channelNumber % 256,
   payload.length / 256 % 256, payload.length % 256] ++ payload

/-- Modelled from the spec: `channel_data::decode` parses the 4-byte header
and returns the channel number together with the payload; it fails on a short
packet or a length mismatch. -/
def decode (packet : List Nat) : Option (Nat × List Nat) :=
  match packet with
  | b0 :: b1 :: b2 :: b3 :: rest =>
      if rest.length = b2 * 256 + b3 then some (b0 * 256 + b1, rest) else none
  | _ => none

end ChannelData

/-! ### Connection intents (`clients/shared/src/eventloop.rs`) -/

/-- Mirrors `SentConnectionIntents`: a map from outbound-request id to
resource id, represented as an association list. -/
structure SentConnectionIntents where
  inner : List (Nat × Nat)
deriving DecidableEq, Repr

namespace SentConnectionIntents

/-- Mirrors `SentConnectionIntents::register_new_intent` (`HashMap::insert`:
the binding for `id` is replaced). -/
def register_new_intent (s : SentConnectionIntents) (id resource : Nat) :
    SentConnectionIntents :=
  { inner := s.inner.filter (fun e => e.1 ≠ id) ++ [(id, resource)] }

/-- Mirrors `SentConnectionIntents::handle_connection_details_received`:
returns whether to accept the reply, plus the updated table. -/
def handle_connection_details_received (s : SentConnectionIntents)
    (reference r : Nat) : Bool × SentConnectionIntents :=
  let has_more_recent_intent :=
    s.inner.any fun e => decide (reference < e.1) && decide (e.2 = r)
  if has_more_recent_intent then
    (false, s)
  else
    (true, { inner := s.inner.filter (fun e => e.2 ≠ r) })

/-- Mirrors `SentConnectionIntents::handle_error`. -/
def handle_error (s : SentConnectionIntents) (req : Nat) :
    Option Nat × SentConnectionIntents :=
  match s.inner.lookup req with
  | some resource => (some resource, { inner := s.inner.filter (fun e => e.1 ≠ req) })
  | none => (none, s)

end SentConnectionIntents

/-! ### Ring buffer

Modelled from the spec: `ringbuffer.rs` is not part of the provided sources.
Spec section 3 describes `buffered_channel_bindings` as a bounded ring of
capacity 100 whose oldest element is evicted silently on overflow; `pop`
drains in FIFO order. -/

/-- Modelled from the spec: bounded FIFO ring buffer, oldest element evicted
when a push exceeds the capacity. -/
structure RingBuffer (α : Type) where
  capacity : Nat
  items : List α
deriving DecidableEq, Repr

namespace RingBuffer

/-- Modelled from the spec: `RingBuffer::push` appends, evicting the oldest
element when the buffer is full. -/
def push {α : Type} (r : RingBuffer α) (x : α) : RingBuffer α :=
  if r.items.length + 1 ≤ r.capacity then
    { r with items := r.items ++ [x] }
  else
    { r with items := r.items.drop 1 ++ [x] }

/-- Modelled from the spec: `RingBuffer::pop` removes the oldest element. -/
def pop {α : Type} (r : RingBuffer α) : Option α × RingBuffer α :=
  match r.items with
  | [] => (none, r)
  | x :: rest => (some x, { r with items := rest })

/-- Modelled from the spec: `RingBuffer::clear`. -/
def clear {α : Type} (r : RingBuffer α) : RingBuffer α :=
  { r with items := [] }

/-- Mirrors `self.buffered_channel_bindings.iter()` membership. -/
def contains (r : RingBuffer SocketAddr) (x : SocketAddr) : Bool :=
  r.items.contains x

end RingBuffer

/-! ### Exponential backoff

Modelled from the spec: `backoff.rs` is not part of the provided sources.
Spec sections 3, 5 and 7 describe an exponential backoff clock that is
strictly a function of the clock passed in, hands out successive timeouts
starting from `REQUEST_TIMEOUT` (1 s), and is exhausted once the time elapsed
since the last reset exceeds a maximum, after which queueing fails until the
backoff is reset. -/

/-- Milliseconds of the initial backoff interval (`REQUEST_TIMEOUT`). -/
def REQUEST_TIMEOUT : Nat := 1000

/-- Modelled from the spec: maximal elapsed time since the last reset after
which the backoff refuses to hand out further intervals. -/
def BACKOFF_MAX_ELAPSED : Nat := 60000

/-- Modelled from the spec: exponential backoff clock.  `now` is the clock
snapshot (`backoff.clock.now`), `startedAt` the time of the last reset,
`step` the number of intervals handed out since the last reset. -/
structure ExponentialBackoff where
  now : Nat
  startedAt : Nat
  step : Nat
deriving DecidableEq, Repr

namespace ExponentialBackoff

/-- Modelled from the spec: `Backoff::reset` restarts the interval sequence
at the current clock. -/
def reset (b : ExponentialBackoff) : ExponentialBackoff :=
  { b with startedAt := b.now, step := 0 }

/-- Modelled from the spec: the interval handed out at a given step; doubles
from `REQUEST_TIMEOUT` and is always positive. -/
def interval (step : Nat) : Nat :=
  REQUEST_TIMEOUT * 2 ^ step

/-- Modelled from the spec: `Backoff::next_backoff` returns the next timeout,
or `none` once the elapsed time since the last reset reaches the maximum. -/
def next_backoff (b : ExponentialBackoff) : Option Nat × ExponentialBackoff :=
  if BACKOFF_MAX_ELAPSED ≤ b.now - b.startedAt then
    (none, b)
  else
    (some (interval b.step), { b with step := b.step + 1 })

end ExponentialBackoff

/-! ### Channel bindings (`snownet/src/allocation.rs`, lower half) -/

/-- Mirrors `struct Channel`. -/
structure Channel where
  peer : SocketAddr
  bound : Bool
  bound_at : Nat
  last_received : Nat
deriving DecidableEq, Repr

namespace Channel

/-- Milliseconds of `Channel::CHANNEL_LIFETIME` (10 minutes). -/
def CHANNEL_LIFETIME : Nat := 10 * 60 * 1000

/-- Milliseconds of `Channel::CHANNEL_REBIND_TIMEOUT` (5 minutes). -/
def CHANNEL_REBIND_TIMEOUT : Nat := 5 * 60 * 1000

/-- Mirrors `Channel::age`. -/
def age (c : Channel) (now : Nat) : Nat :=
  now - c.bound_at

/-- Mirrors `Channel::no_activity`. -/
def no_activity (c : Channel) : Bool :=
  c.last_received = c.bound_at

/-- Mirrors `Channel::connected_to_peer`. -/
def connected_to_peer (c : Channel) (peer : SocketAddr) (now : Nat) : Bool :=
  c.peer = peer && c.age now < CHANNEL_LIFETIME && c.bound

/-- Mirrors `Channel::can_rebind`. -/
def can_rebind (c : Channel) (now : Nat) : Bool :=
  c.no_activity && CHANNEL_LIFETIME + CHANNEL_REBIND_TIMEOUT ≤ c.age now

/-- Mirrors `Channel::needs_refresh`. -/
def needs_refresh (c : Channel) (now : Nat) : Bool :=
  if c.age now < CHANNEL_LIFETIME / 2 then false
  else if c.no_activity then false
  else true

/-- Mirrors `Channel::set_confirmed`. -/
def set_confirmed (c : Channel) (now : Nat) : Channel :=
  { c with bound := true, bound_at := now, last_received := now }

/-- Mirrors `Channel::record_received`. -/
def record_received (c : Channel) (now : Nat) : Channel :=
  { c with last_received := now }

end Channel

/-- Mirrors `struct ChannelBindings`: map from 16-bit channel number to
`Channel` plus the next candidate channel number. -/
structure ChannelBindings where
  inner : List (Nat × Channel)
  next_channel : Nat
deriving DecidableEq, Repr

namespace ChannelBindings

/-- Mirrors `ChannelBindings::FIRST_CHANNEL` (0x4000). -/
def FIRST_CHANNEL : Nat := 0x4000

/-- Mirrors `ChannelBindings::LAST_CHANNEL` (0x4FFF). -/
def LAST_CHANNEL : Nat := 0x4FFF

/-- Mirrors `Default for ChannelBindings`. -/
def default : ChannelBindings :=
  { inner := [], next_channel := FIRST_CHANNEL }

/-- Mirrors `HashMap::get` on `inner` (keys are unique in a `HashMap`; the
model looks up the first binding). -/
def get (cb : ChannelBindings) (n : Nat) : Option Channel :=
  cb.inner.lookup n

/-- Mirrors `HashMap::insert` on `inner`. -/
def insert (cb : ChannelBindings) (n : Nat) (c : Channel) : ChannelBindings :=
  { cb with inner := cb.inner.filter (fun e => e.1 ≠ n) ++ [(n, c)] }

/-- The scan loop inside `ChannelBindings::new_channel_to_peer`: starting at
candidate `c`, returns the channel number to break with (if any) together
with the final value of `next_channel`.  The loop breaks on an empty or
rebindable slot, advances otherwise, and gives up as soon as the candidate
reaches `LAST_CHANNEL` after an increment. -/
def scan (inner : List (Nat × Channel)) (now : Nat) (c : Nat) : Option Nat × Nat :=
  match inner.lookup c with
  | some ch =>
      if ch.can_rebind now then (some c, c)
      else if LAST_CHANNEL ≤ c + 1 then (none, c + 1)
      else scan inner now (c + 1)
  | none => (some c, c)
termination_by LAST_CHANNEL - c
decreasing_by omega

/-- Mirrors `ChannelBindings::new_channel_to_peer`: wraps `next_channel` when
it sits at `LAST_CHANNEL`, scans for an empty or rebindable slot, and inserts
a fresh unbound channel on success. -/
def new_channel_to_peer (cb : ChannelBindings) (peer : SocketAddr) (now : Nat) :
    Option Nat × ChannelBindings :=
  let start := if cb.next_channel = LAST_CHANNEL then FIRST_CHANNEL else cb.next_channel
  match scan cb.inner now start with
  | (some c, _) =>
      (some c,
        insert { cb with next_channel := c } c
          { peer := peer, bound := false, bound_at := now, last_received := now })
  | (none, final) => (none, { cb with next_channel := final })

/-- Mirrors `ChannelBindings::try_decode`. -/
def try_decode (cb : ChannelBindings) (packet : List Nat) (now : Nat) :
    Option (SocketAddr × List Nat) × ChannelBindings :=
  match ChannelData.decode packet with
  | none => (none, cb)
  | some (channel_number, payload) =>
      match cb.get channel_number with
      | none => (none, cb)
      | some channel =>
          if channel.bound then
            (some (channel.peer, payload),
              cb.insert channel_number (channel.record_received now))
          else
            (none, cb)

/-- Mirrors `ChannelBindings::channels_to_refresh` (already filtered by the
caller-supplied in-flight predicate). -/
def channels_to_refresh (cb : ChannelBindings) (now : Nat)
    (is_inflight : Nat → Bool) : List (Nat × SocketAddr) :=
  (cb.inner.filter fun e => e.2.needs_refresh now && !is_inflight e.1).map
    fun e => (e.1, e.2.peer)

/-- Mirrors `ChannelBindings::channel_to_peer`. -/
def channel_to_peer (cb : ChannelBindings) (peer : SocketAddr) (now : Nat) :
    Option Nat :=
  (cb.inner.find? fun e => e.2.connected_to_peer peer now).map fun e => e.1

/-- Mirrors `ChannelBindings::handle_failed_binding`. -/
def handle_failed_binding (cb : ChannelBindings) (c : Nat) : ChannelBindings :=
  { cb with inner := cb.inner.filter (fun e => e.1 ≠ c) }

/-- Mirrors `ChannelBindings::set_confirmed`; returns whether the channel was
known. -/
def set_confirmed (cb : ChannelBindings) (c : Nat) (now : Nat) :
    Bool × ChannelBindings :=
  match cb.get c with
  | none => (false, cb)
  | some channel => (true, cb.insert c (channel.set_confirmed now))

/-- Mirrors `ChannelBindings::clear`. -/
def clear (_cb : ChannelBindings) : ChannelBindings :=
  default

end ChannelBindings

/-! ### Allocation (`snownet/src/allocation.rs`, upper half) -/

/-- One entry of `sent_requests`: transaction id mapped to the original
request, the send time and the backoff in force. -/
structure SentRequest where
  tid : Nat
  request : StunMessage
  sent_at : Nat
  backoff : Nat
deriving DecidableEq, Repr

/-- Mirrors `struct Allocation`.  `nextId` determinizes the fresh random
transaction ids (see the module comment). -/
structure Allocation where
  server : SocketAddr
  last_srflx_candidate : Option Candidate
  ip4_allocation : Option Candidate
  ip6_allocation : Option Candidate
  allocation_lifetime : Option (Nat × Nat)
  buffered_transmits : List Transmit
  events : List CandidateEvent
  backoff : ExponentialBackoff
  sent_requests : List SentRequest
  channel_bindings : ChannelBindings
  buffered_channel_bindings : RingBuffer SocketAddr
  last_now : Nat
  username : String
  password : String
  realm : String
  nonce : Option String
  nextId : Nat
deriving DecidableEq, Repr

/-- Mirrors `make_allocate_request` (the random transaction id is replaced by
`authenticate` anyway and is set to 0 here). -/
def make_allocate_request : StunMessage :=
  { cls := .request, method := .allocate, transactionId := 0,
    attributes := [.requestedTransport 17, .additionalAddressFamily .v6] }

/-- Mirrors `make_refresh_request`. -/
def make_refresh_request : StunMessage :=
  { cls := .request, method := .refresh, transactionId := 0,
    attributes := [.requestedTransport 17, .additionalAddressFamily .v6] }

/-- Mirrors `make_channel_bind_request`. -/
def make_channel_bind_request (target : SocketAddr) (channel : Nat) : StunMessage :=
  { cls := .request, method := .channelBind, transactionId := 0,
    attributes := [.xorPeerAddress target, .channelNumber channel] }

/-- Mirrors `update_candidate`: returns the new current candidate and the
extended event queue. -/
def update_candidate (maybe_new : Option Candidate) (maybe_current : Option Candidate)
    (events : List CandidateEvent) : Option Candidate × List CandidateEvent :=
  match maybe_new, maybe_current with
  | some new, some current =>
      if new ≠ current then (some new, events ++ [.new new]) else (maybe_current, events)
  | some new, none => (some new, events ++ [.new new])
  | _, _ => (maybe_current, events)

/-- Mirrors `srflx_candidate`: an `XOR-MAPPED-ADDRESS` attribute yields a
server-reflexive candidate based on the local socket. -/
def srflx_candidate (local_ : SocketAddr) (attr : Attribute) : Option Candidate :=
  match attr with
  | .xorMappedAddress a => some (.serverReflexive a local_)
  | _ => none

/-- Mirrors `relay_candidate`: an `XOR-RELAY-ADDRESS` attribute whose address
passes the family filter yields a relayed candidate. -/
def relay_candidate (filter : SocketAddr → Bool) (attr : Attribute) : Option Candidate :=
  match attr with
  | .xorRelayAddress a => if filter a then some (.relayed a) else none
  | _ => none

namespace Allocation

/-- Mirrors `Allocation::has_allocation`. -/
def has_allocation (a : Allocation) : Bool :=
  a.ip4_allocation.isSome || a.ip6_allocation.isSome

/-- Mirrors `Allocation::can_relay_to`. -/
def can_relay_to (a : Allocation) (socket : SocketAddr) : Bool :=
  match socket with
  | .v4 _ => a.ip4_allocation.isSome
  | .v6 _ => a.ip6_allocation.isSome

/-- Mirrors `Allocation::channel_binding_in_flight_by_number`. -/
def channel_binding_in_flight_by_number (a : Allocation) (channel : Nat) : Bool :=
  a.sent_requests.any fun r =>
    r.request.method = .channelBind && r.request.getChannelNumber = some channel

/-- Mirrors `Allocation::channel_binding_in_flight_by_peer`: a `CHANNEL_BIND`
is in flight for a peer when a sent request or a buffered intent targets it. -/
def channel_binding_in_flight_by_peer (a : Allocation) (peer : SocketAddr) : Bool :=
  (a.sent_requests.any fun r =>
    r.request.method = .channelBind && r.request.getXorPeerAddress = some peer)
  || a.buffered_channel_bindings.contains peer

/-- Mirrors `Allocation::allocate_in_flight`. -/
def allocate_in_flight (a : Allocation) : Bool :=
  a.sent_requests.any fun r => r.request.method = .allocate

/-- Mirrors `Allocation::refresh_in_flight`. -/
def refresh_in_flight (a : Allocation) : Bool :=
  a.sent_requests.any fun r => r.request.method = .refresh

/-- Mirrors `Allocation::refresh_allocation_at`. -/
def refresh_allocation_at (a : Allocation) : Option Nat :=
  a.allocation_lifetime.map fun rl => rl.1 + rl.2 / 2

/-- Mirrors `Allocation::allocation_expires_at`. -/
def allocation_expires_at (a : Allocation) : Option Nat :=
  a.allocation_lifetime.map fun rl => rl.1 + rl.2

/-- Mirrors `utils::earliest` (the earlier of two optional instants). -/
def earliest : Option Nat → Option Nat → Option Nat
  | some x, some y => some (min x y)
  | some x, none => some x
  | none, y => y

/-- Mirrors `Allocation::poll_timeout`. -/
def poll_timeout (a : Allocation) : Option Nat :=
  let earliest_timeout := if !a.refresh_in_flight then a.refresh_allocation_at else none
  a.sent_requests.foldl (fun acc r => earliest acc (some (r.sent_at + r.backoff)))
    earliest_timeout

/-- Mirrors `Allocation::is_suspended`. -/
def is_suspended (a : Allocation) : Bool :=
  !a.has_allocation && a.sent_requests.isEmpty && a.buffered_transmits.isEmpty
    && a.poll_timeout = none

/-- Mirrors `Allocation::invalidate_allocation`: emits `Invalid` events for
present relayed candidates, clears channel bindings, lifetime and sent
requests. -/
def invalidate_allocation (a : Allocation) : Allocation :=
  { a with
    events := a.events ++ (a.ip4_allocation.map CandidateEvent.invalid).toList
      ++ (a.ip6_allocation.map CandidateEvent.invalid).toList,
    ip4_allocation := none,
    ip6_allocation := none,
    channel_bindings := ChannelBindings.default,
    allocation_lifetime := none,
    sent_requests := [] }

/-- Mirrors `Allocation::authenticate`: strips `NONCE`, `MESSAGE-INTEGRITY`,
`REALM` and `USERNAME`, appends the current credentials plus the nonce when
known, assigns a fresh transaction id and appends `MESSAGE-INTEGRITY`. -/
def authenticate (a : Allocation) (message : StunMessage) : StunMessage :=
  let attributes := (message.attributes.filter fun attr =>
      match attr with
      | .nonce _ => false
      | .messageIntegrity _ _ _ => false
      | .realm _ => false
      | .username _ => false
      | _ => true)
    ++ [.username a.username, .realm a.realm]
    ++ (a.nonce.map Attribute.nonce).toList
  { cls := .request, method := message.method, transactionId := a.nextId,
    attributes := attributes ++ [.messageIntegrity a.username a.realm a.password] }

/-- Mirrors `Allocation::authenticate_and_queue`; returns whether a message
was actually queued. -/
def authenticate_and_queue (a : Allocation) (message : StunMessage) :
    Bool × Allocation :=
  match a.backoff.next_backoff with
  | (none, backoff) => (false, { a with backoff := backoff })
  | (some interval, backoff) =>
      let authenticated_message := a.authenticate message
      let id := authenticated_message.transactionId
      (true,
        { a with
          backoff := backoff,
          nextId := a.nextId + 1,
          sent_requests := a.sent_requests.filter (fun r => r.tid ≠ id)
            ++ [{ tid := id, request := authenticated_message,
                  sent_at := a.last_now, backoff := interval }],
          buffered_transmits := a.buffered_transmits
            ++ [{ dst := a.server, payload := authenticated_message }] })

/-- Mirrors `Allocation::update_now`: ignores non-increasing clocks; on a
strict advance updates the backoff clock and resets the backoff when no
request is pending. -/
def update_now (a : Allocation) (now : Nat) : Allocation :=
  if now ≤ a.last_now then a
  else
    let backoff := { a.backoff with now := now }
    let backoff := if a.sent_requests.isEmpty then backoff.reset else backoff
    { a with last_now := now, backoff := backoff }

/-- Mirrors `Allocation::new`: initializes the state and queues the first
ALLOCATE. -/
def new (server : SocketAddr) (username password realm : String) (now : Nat) :
    Allocation :=
  let base : Allocation :=
    { server := server,
      last_srflx_candidate := none,
      ip4_allocation := none,
      ip6_allocation := none,
      allocation_lifetime := none,
      buffered_transmits := [],
      events := [],
      backoff := { now := now, startedAt := now, step := 0 },
      sent_requests := [],
      channel_bindings := ChannelBindings.default,
      buffered_channel_bindings := { capacity := 100, items := [] },
      last_now := now,
      username := username,
      password := password,
      realm := realm,
      nonce := none,
      nextId := 0 }
  (base.authenticate_and_queue make_allocate_request).2

/-- Mirrors `Allocation::bind_channel`. -/
def bind_channel (a : Allocation) (peer : SocketAddr) (now : Nat) : Allocation :=
  if a.is_suspended then a
  else
    let a := a.update_now now
    if (a.channel_bindings.channel_to_peer peer now).isSome then a
    else if a.channel_binding_in_flight_by_peer peer then a
    else if !a.has_allocation then
      { a with buffered_channel_bindings := a.buffered_channel_bindings.push peer }
    else if !a.can_relay_to peer then a
    else
      match a.channel_bindings.new_channel_to_peer peer now with
      | (none, cb) => { a with channel_bindings := cb }
      | (some channel, cb) =>
          (Allocation.authenticate_and_queue { a with channel_bindings := cb }
            (make_channel_bind_request peer channel)).2

/-- The drain loop at the end of the ALLOCATE success arm of
`Allocation::handle_input`: pop each deferred peer and re-run `bind_channel`.
The fuel equals the ring occupancy; with an allocation present
`bind_channel` never re-buffers, so the fuel is never exhausted on the states
the loop runs on. -/
def drainBuffered : Allocation → Nat → Nat → Allocation
  | a, _, 0 => a
  | a, now, fuel + 1 =>
      match a.buffered_channel_bindings.pop with
      | (none, _) => a
      | (some peer, rb) =>
          drainBuffered
            (bind_channel { a with buffered_channel_bindings := rb } peer now)
            now fuel

/-- Mirrors `Allocation::handle_input`.  The model consumes the decoded STUN
message; a packet that fails to decode is rejected by the source before any
state change, which the embedding leaves implicit. -/
def handle_input (a : Allocation) (from_ local_ : SocketAddr)
    (message : StunMessage) (now : Nat) : Bool × Allocation :=
  let a := a.update_now now
  if from_ ≠ a.server then (false, a)
  else
    match a.sent_requests.find? (fun r => r.tid = message.transactionId) with
    | none => (false, a)
    | some entry =>
        let original_request := entry.request
        let a := { a with
          sent_requests := a.sent_requests.filter
            (fun r => r.tid ≠ message.transactionId),
          backoff := a.backoff.reset }
        match message.getErrorCode with
        | some error =>
            if error = 401 && original_request.getNonce.isSome then (true, a)
            else if error = 401 || error = 438 then
              let a := match message.getNonce with
                | some n => { a with nonce := some n }
                | none => a
              match message.getRealm with
              | some offered_realm =>
                  if offered_realm ≠ a.realm then (true, a)
                  else (true, (a.authenticate_and_queue original_request).2)
              | none => (true, (a.authenticate_and_queue original_request).2)
            else
              match message.method with
              | .allocate =>
                  (true, { a with
                    buffered_channel_bindings := a.buffered_channel_bindings.clear })
              | .channelBind =>
                  match original_request.getChannelNumber with
                  | none => (true, a)
                  | some channel =>
                      (true, { a with
                        channel_bindings :=
                          a.channel_bindings.handle_failed_binding channel })
              | .refresh =>
                  (true,
                    (a.invalidate_allocation.authenticate_and_queue
                      make_allocate_request).2)
              | .other _ => (true, a)
        | none =>
            if message.cls ≠ .successResponse then (true, a)
            else
              match message.method with
              | .allocate =>
                  match message.getLifetime with
                  | none => (true, a)
                  | some lifetime =>
                      let maybe_srflx_candidate :=
                        message.attributes.findSome? (srflx_candidate local_)
                      let maybe_ip4_relay_candidate :=
                        message.attributes.findSome?
                          (relay_candidate SocketAddr.is_ipv4)
                      let maybe_ip6_relay_candidate :=
                        message.attributes.findSome?
                          (relay_candidate SocketAddr.is_ipv6)
                      if maybe_ip4_relay_candidate = none
                          && maybe_ip6_relay_candidate = none then (true, a)
                      else
                        let a := { a with allocation_lifetime := some (now, lifetime) }
                        let se := update_candidate maybe_srflx_candidate
                          a.last_srflx_candidate a.events
                        let a := { a with last_srflx_candidate := se.1, events := se.2 }
                        let i4 := update_candidate maybe_ip4_relay_candidate
                          a.ip4_allocation a.events
                        let a := { a with ip4_allocation := i4.1, events := i4.2 }
                        let i6 := update_candidate maybe_ip6_relay_candidate
                          a.ip6_allocation a.events
                        let a := { a with ip6_allocation := i6.1, events := i6.2 }
                        (true, drainBuffered a now a.buffered_channel_bindings.items.length)
              | .refresh =>
                  match message.getLifetime with
                  | none => (true, a)
                  | some lifetime =>
                      (true, { a with allocation_lifetime := some (now, lifetime) })
              | .channelBind =>
                  match original_request.getChannelNumber with
                  | none => (true, a)
                  | some channel =>
                      (true, { a with
                        channel_bindings :=
                          (a.channel_bindings.set_confirmed channel now).2 })
              | .other _ => (true, a)

/-- The retry loop of `Allocation::handle_timeout`: while some sent request
has timed out, remove it and re-queue it.  The fuel equals the number of
entries; re-queued requests carry a fresh positive backoff starting at the
current instant and thus never time out within the same call. -/
def resendLoop : Allocation → Nat → Nat → Allocation
  | a, _, 0 => a
  | a, now, fuel + 1 =>
      match a.sent_requests.find? (fun r => r.backoff ≤ now - r.sent_at) with
      | none => a
      | some timed_out =>
          let a := { a with
            sent_requests := a.sent_requests.filter (fun r => r.tid ≠ timed_out.tid) }
          resendLoop (a.authenticate_and_queue timed_out.request).2 now fuel

/-- Mirrors `Allocation::handle_timeout`. -/
def handle_timeout (a : Allocation) (now : Nat) : Allocation :=
  let a := a.update_now now
  let a :=
    if a.allocation_expires_at.any (fun expires_at => expires_at ≤ now) then
      a.invalidate_allocation
    else a
  let a := resendLoop a now a.sent_requests.length
  let a :=
    match a.refresh_allocation_at with
    | some refresh_at =>
        if refresh_at ≤ now && !a.refresh_in_flight then
          let qa := a.authenticate_and_queue make_refresh_request
          if qa.1 then qa.2 else qa.2.invalidate_allocation
        else a
    | none => a
  let channel_refresh_messages :=
    (a.channel_bindings.channels_to_refresh now
      (a.channel_binding_in_flight_by_number)).map
      fun np => make_channel_bind_request np.2 np.1
  channel_refresh_messages.foldl (fun acc m => (acc.authenticate_and_queue m).2) a

/-- Mirrors `Allocation::poll_event`. -/
def poll_event (a : Allocation) : Option CandidateEvent × Allocation :=
  match a.events with
  | [] => (none, a)
  | e :: rest => (some e, { a with events := rest })

/-- Mirrors `Allocation::poll_transmit`. -/
def poll_transmit (a : Allocation) : Option Transmit × Allocation :=
  match a.buffered_transmits with
  | [] => (none, a)
  | t :: rest => (some t, { a with buffered_transmits := rest })

/-- Mirrors `Allocation::refresh`. -/
def refresh (a : Allocation) (username password realm : String) (now : Nat) :
    Allocation :=
  let a := a.update_now now
  let a := { a with username := username, realm := realm, password := password }
  if !a.has_allocation && a.allocate_in_flight then a
  else if a.is_suspended then (a.authenticate_and_queue make_allocate_request).2
  else (a.authenticate_and_queue make_refresh_request).2

/-- Mirrors `Allocation::encode_to_vec`: channel-data framing iff a bound
channel to the peer exists. -/
def encode_to_vec (a : Allocation) (peer : SocketAddr) (packet : List Nat)
    (now : Nat) : Option (List Nat) :=
  (a.channel_bindings.channel_to_peer peer now).map
    fun channel_number => ChannelData.encode channel_number packet

end Allocation

/-! ### Client state (`tunnel/src/client.rs`)

Resource ids, gateway ids and IP addresses are abstracted to `Nat`; domain
names to `String`.  The `PeerStore` (`peer_store.rs` is not among the
provided sources) is modelled from the spec: a map from gateway id to the
set of IPs routed to that peer; `add_ips` succeeds exactly when the gateway
is a known peer, `exact_match` finds a peer routing the given IP. -/

/-- Association-list `HashMap::insert` (replace the binding). -/
def mapInsert {β : Type} (l : List (Nat × β)) (k : Nat) (v : β) : List (Nat × β) :=
  l.filter (fun e => e.1 ≠ k) ++ [(k, v)]

/-- Association-list `HashMap::get_mut` followed by an in-place update. -/
def mapUpdate {β : Type} (l : List (Nat × β)) (k : Nat) (v : β) : List (Nat × β) :=
  l.map fun e => if e.1 = k then (k, v) else e

/-- Association-list `HashMap::remove` (value discarded). -/
def mapRemove {β : Type} (l : List (Nat × β)) (k : Nat) : List (Nat × β) :=
  l.filter (fun e => e.1 ≠ k)

/-- Mirrors `ResourceDescription` (DNS or CIDR resource). -/
inductive ResourceDescription where
  | dns (id : Nat) (address : String)
  | cidr (id : Nat) (address : Nat)
deriving DecidableEq, Repr

/-- Mirrors `ResourceDescription::id`. -/
def ResourceDescription.id : ResourceDescription → Nat
  | .dns i _ => i
  | .cidr i _ => i

/-- Mirrors `struct DnsResource` (id plus resolved domain name). -/
structure DnsResource where
  id : Nat
  address : String
deriving DecidableEq, Repr

/-- Mirrors `struct AwaitingConnectionDetails` (the field name
`total_attemps` is the source's spelling). -/
structure AwaitingConnectionDetails where
  total_attemps : Nat
  response_received : Bool
  domain : Option String
  gateways : List Nat
deriving DecidableEq, Repr

/-- Mirrors `ReuseConnection`. -/
structure ReuseConnection where
  resource_id : Nat
  gateway_id : Nat
  payload : Option String
deriving DecidableEq, Repr

/-- The errors of `ConnlibError` that `attempt_to_reuse_connection` can
produce. -/
inductive ConnlibError where
  | unknownResource
  | unexpectedConnectionDetails
  | pendingConnection
  | tooManyConnectionRequests
deriving DecidableEq, Repr

/-- Mirrors `Event::ConnectionIntent` as emitted by the periodic ticker (the
resource is identified by its id). -/
structure ConnectionIntentEvent where
  resource : Nat
  connected_gateway_ids : List Nat
  reference : Nat
deriving DecidableEq, Repr

/-- Mirrors the part of `ClientState` that the connection-reuse path
touches. -/
structure ClientState where
  awaiting_connection : List (Nat × AwaitingConnectionDetails)
  awaiting_connection_timers : List Nat
  gateway_awaiting_connection : List Nat
  gateway_awaiting_connection_timers : List Nat
  resources_gateways : List (Nat × Nat)
  dns_resources_internal_ips : List (DnsResource × List Nat)
  resource_ids : List (Nat × ResourceDescription)
  peers : List (Nat × List Nat)
deriving DecidableEq, Repr

namespace ClientState

/-- Capacity of `gateway_awaiting_connection_timers` (`FuturesMap::new(_, 100)`). -/
def GATEWAY_TIMERS_CAPACITY : Nat := 100

/-- Mirrors `ClientState::get_resource_ip`. -/
def get_resource_ip (s : ClientState) (resource : ResourceDescription)
    (domain : Option String) : List Nat :=
  match resource with
  | .dns i _ =>
      match domain with
      | none => []
      | some d =>
          match (s.dns_resources_internal_ips.find?
              fun e => e.1 = DnsResource.mk i d) with
          | some e => e.2
          | none => []
  | .cidr _ addr => [addr]

/-- Modelled from the spec: `PeerStore::exact_match` reports whether some
connected peer routes the given IP. -/
def peers_exact_match (s : ClientState) (ip : Nat) : Bool :=
  s.peers.any fun p => p.2.contains ip

/-- Mirrors `ClientState::is_connected_to`. -/
def is_connected_to (s : ClientState) (resource : Nat) (domain : Option String) :
    Bool :=
  match s.resource_ids.lookup resource with
  | none => false
  | some desc => (s.get_resource_ip desc domain).any fun ip => s.peers_exact_match ip

/-- Mirrors `ClientState::attempt_to_reuse_connection`; returns the result
together with the updated state. -/
def attempt_to_reuse_connection (s : ClientState) (resource gateway
    expected_attempts : Nat) :
    Except ConnlibError (Option ReuseConnection) × ClientState :=
  match s.resource_ids.lookup resource with
  | none => (.error .unknownResource, s)
  | some desc =>
      match s.awaiting_connection.lookup resource with
      | none => (.error .unexpectedConnectionDetails, s)
      | some details =>
          let domain := details.domain
          if s.is_connected_to resource domain then
            (.error .unexpectedConnectionDetails, s)
          else
            let details := { details with response_received := true }
            let s := { s with
              awaiting_connection := mapUpdate s.awaiting_connection resource details }
            if details.total_attemps ≠ expected_attempts then
              (.error .unexpectedConnectionDetails, s)
            else if s.gateway_awaiting_connection.contains gateway then
              (.error .pendingConnection,
                { s with
                  awaiting_connection := mapRemove s.awaiting_connection resource,
                  awaiting_connection_timers :=
                    s.awaiting_connection_timers.filter (fun r => r ≠ resource) })
            else
              let s := { s with
                resources_gateways := mapInsert s.resources_gateways resource gateway }
              match s.peers.lookup gateway with
              | none =>
                  if GATEWAY_TIMERS_CAPACITY ≤ s.gateway_awaiting_connection_timers.length
                      && !s.gateway_awaiting_connection_timers.contains gateway then
                    (.error .tooManyConnectionRequests, s)
                  else
                    (.ok none,
                      { s with
                        gateway_awaiting_connection_timers :=
                          if s.gateway_awaiting_connection_timers.contains gateway then
                            s.gateway_awaiting_connection_timers
                          else s.gateway_awaiting_connection_timers ++ [gateway],
                        gateway_awaiting_connection :=
                          if s.gateway_awaiting_connection.contains gateway then
                            s.gateway_awaiting_connection
                          else s.gateway_awaiting_connection ++ [gateway] })
              | some ips =>
                  (.ok (some { resource_id := resource, gateway_id := gateway,
                               payload := domain }),
                    { s with
                      peers := mapUpdate s.peers gateway
                        (ips ++ s.get_resource_ip desc domain),
                      awaiting_connection := mapRemove s.awaiting_connection resource,
                      awaiting_connection_timers :=
                        s.awaiting_connection_timers.filter (fun r => r ≠ resource) })

/-- Mirrors the `awaiting_connection_timers` arm of
`ClientState::poll_next_event` for a single ticker firing on `resource`:
a vanished entry or an already-received response stops the ticker without
emitting; otherwise the attempt counter is bumped and a `ConnectionIntent`
event is produced. -/
def handle_connection_tick (s : ClientState) (resource : Nat) :
    Option ConnectionIntentEvent × ClientState :=
  match s.awaiting_connection.lookup resource with
  | none =>
      (none, { s with awaiting_connection_timers :=
        s.awaiting_connection_timers.filter (fun r => r ≠ resource) })
  | some entry =>
      if entry.response_received then
        (none, { s with awaiting_connection_timers :=
          s.awaiting_connection_timers.filter (fun r => r ≠ resource) })
      else
        let entry := { entry with total_attemps := entry.total_attemps + 1 }
        (some { resource := resource, connected_gateway_ids := entry.gateways,
                reference := entry.total_attemps },
          { s with awaiting_connection := mapUpdate s.awaiting_connection resource entry })

end ClientState

/-! ## Theorems -/

/-- C1: `handle_connection_details_received` for request id `R` targeting
resource `r` returns `false` iff some recorded pair `(R', r)` for the same
resource has `R' > R`; whenever it returns `true`, every recorded entry whose
resource is `r` is removed from the table. -/
theorem connection_details_received_spec (s : SentConnectionIntents) (R r : Nat) :
    ((s.handle_connection_details_received R r).1 = false ↔
      ∃ p ∈ s.inner, p.2 = r ∧ R < p.1) ∧
    ((s.handle_connection_details_received R r).1 = true →
      ∀ p ∈ (s.handle_connection_details_received R r).2.inner, p.2 ≠ r) := by
  simp only [SentConnectionIntents.handle_connection_details_received]
  by_cases h : (s.inner.any fun e => decide (R < e.1) && decide (e.2 = r)) = true
  · rw [if_pos h]
    rw [List.any_eq_true] at h
    obtain ⟨p, hp, hcond⟩ := h
    simp only [Bool.and_eq_true, decide_eq_true_eq] at hcond
    refine ⟨iff_of_true rfl ⟨p, hp, hcond.2, hcond.1⟩, fun hcontra => ?_⟩
    exact absurd hcontra (by simp)
  · rw [if_neg h]
    refine ⟨⟨fun hfalse => absurd hfalse (by simp), fun hex => ?_⟩, fun _ p hp => ?_⟩
    · exfalso
      obtain ⟨p, hp, hr, hlt⟩ := hex
      exact h (List.any_eq_true.mpr ⟨p, hp, by simp [hr, hlt]⟩)
    · have hmem : p ∈ s.inner.filter (fun e => decide (e.2 ≠ r)) := hp
      simp only [List.mem_filter, decide_eq_true_eq] at hmem
      exact hmem.2

/-- Witness for C1 at a concrete table: with intents `(1, 7)` and `(2, 7)`
recorded, the reply for request id `1` is refused because of the newer
intent `(2, 7)`. -/
theorem connection_details_received_spec_witness :
    ((SentConnectionIntents.mk [(1, 7), (2, 7)]).handle_connection_details_received
        1 7).1 = false :=
  (connection_details_received_spec (SentConnectionIntents.mk [(1, 7), (2, 7)])
      1 7).1.mpr ⟨(2, 7), by decide, rfl, by decide⟩

/-- Looking up a key just removed from an association list fails. -/
theorem lookup_mapRemove {β : Type} (l : List (Nat × β)) (k : Nat) :
    (mapRemove l k).lookup k = none := by
  induction l with
  | nil => rfl
  | cons e t ih =>
      obtain ⟨k1, v1⟩ := e
      unfold mapRemove at ih ⊢
      by_cases he : k1 = k
      · rw [List.filter_cons_of_neg (by simp [he])]
        exact ih
      · rw [List.filter_cons_of_pos (by simp [he])]
        have hne : (k == k1) = false := beq_eq_false_iff_ne.mpr (Ne.symm he)
        simp only [List.lookup, hne]
        exact ih

/-- Looking up a key just updated in an association list returns the new
value, provided the key was present. -/
theorem lookup_mapUpdate {β : Type} (l : List (Nat × β)) (k : Nat) (v : β)
    (h : (l.lookup k).isSome) : (mapUpdate l k v).lookup k = some v := by
  induction l with
  | nil => simp [List.lookup] at h
  | cons e t ih =>
      obtain ⟨k1, v1⟩ := e
      by_cases he : k1 = k
      · subst he
        have hm : mapUpdate ((k1, v1) :: t) k1 v = (k1, v) :: mapUpdate t k1 v := by
          simp [mapUpdate]
        rw [hm]
        simp [List.lookup]
      · have hne : (k == k1) = false := beq_eq_false_iff_ne.mpr (Ne.symm he)
        have hm : mapUpdate ((k1, v1) :: t) k v = (k1, v1) :: mapUpdate t k v := by
          simp [mapUpdate, he]
        simp only [List.lookup, hne] at h
        rw [hm]
        simp only [List.lookup, hne]
        exact ih h

/-- C9: `attempt_to_reuse_connection` fails with `UnknownResource` iff the
resource id is not known; with `UnexpectedConnectionDetails` iff (the
resource being known) it is not in the awaiting-connection table, or is
already connected, or the recorded attempt count differs from
`expected_attempts`; and with `PendingConnection` iff (all previous checks
passing) the gateway is already in `gateway_awaiting_connection`, in which
case the per-resource awaiting state is removed. -/
theorem attempt_to_reuse_connection_error_spec (s : ClientState)
    (resource gateway expected_attempts : Nat) :
    ((s.attempt_to_reuse_connection resource gateway expected_attempts).1 =
        .error .unknownResource ↔ s.resource_ids.lookup resource = none) ∧
    ((s.attempt_to_reuse_connection resource gateway expected_attempts).1 =
        .error .unexpectedConnectionDetails ↔
      (s.resource_ids.lookup resource).isSome = true ∧
        (s.awaiting_connection.lookup resource = none ∨
          ∃ d, s.awaiting_connection.lookup resource = some d ∧
            (s.is_connected_to resource d.domain = true ∨
              (s.is_connected_to resource d.domain = false ∧
                d.total_attemps ≠ expected_attempts)))) ∧
    ((s.attempt_to_reuse_connection resource gateway expected_attempts).1 =
        .error .pendingConnection ↔
      ∃ d, (s.resource_ids.lookup resource).isSome = true ∧
        s.awaiting_connection.lookup resource = some d ∧
        s.is_connected_to resource d.domain = false ∧
        d.total_attemps = expected_attempts ∧
        s.gateway_awaiting_connection.contains gateway = true) ∧
    ((s.attempt_to_reuse_connection resource gateway expected_attempts).1 =
        .error .pendingConnection →
      (s.attempt_to_reuse_connection resource gateway
          expected_attempts).2.awaiting_connection.lookup resource = none) := by
  rcases h1 : s.resource_ids.lookup resource with _ | desc
  · have hres : (s.attempt_to_reuse_connection resource gateway expected_attempts).1 =
        Except.error ConnlibError.unknownResource := by
      simp [ClientState.attempt_to_reuse_connection, h1]
    exact ⟨by rw [hres]; simp,
      by rw [hres]; simp,
      by rw [hres]; simp,
      fun habs => absurd (hres ▸ habs) (by simp)⟩
  · rcases h2 : s.awaiting_connection.lookup resource with _ | d
    · have hres : (s.attempt_to_reuse_connection resource gateway expected_attempts).1 =
          Except.error ConnlibError.unexpectedConnectionDetails := by
        simp [ClientState.attempt_to_reuse_connection, h1, h2]
      exact ⟨by rw [hres]; simp,
        by rw [hres]; simp,
        by rw [hres]; simp,
        fun habs => absurd (hres ▸ habs) (by simp)⟩
    · by_cases h3 : s.is_connected_to resource d.domain = true
      · have hres : (s.attempt_to_reuse_connection resource gateway expected_attempts).1 =
            Except.error ConnlibError.unexpectedConnectionDetails := by
          simp [ClientState.attempt_to_reuse_connection, h1, h2, h3]
        exact ⟨by rw [hres]; simp,
          by rw [hres]; simp [h3],
          by rw [hres]; simp [h3],
          fun habs => absurd (hres ▸ habs) (by simp)⟩
      · rw [Bool.not_eq_true] at h3
        by_cases h4 : d.total_attemps = expected_attempts
        · by_cases h5 : s.gateway_awaiting_connection.contains gateway = true
          · have h5m : gateway ∈ s.gateway_awaiting_connection := by simpa using h5
            have hres : (s.attempt_to_reuse_connection resource gateway
                expected_attempts).1 = Except.error ConnlibError.pendingConnection := by
              simp [ClientState.attempt_to_reuse_connection, h1, h2, h3, h4, h5m]
            have hstate : (s.attempt_to_reuse_connection resource gateway
                expected_attempts).2.awaiting_connection.lookup resource = none := by
              simp [ClientState.attempt_to_reuse_connection, h1, h2, h3, h4, h5m,
                lookup_mapRemove]
            exact ⟨by rw [hres]; simp,
              by rw [hres]; simp [h3, h4],
              by rw [hres]; simp [h3, h4, h5m],
              fun _ => hstate⟩
          · rw [Bool.not_eq_true] at h5
            have h5m : gateway ∉ s.gateway_awaiting_connection := by
              simpa using h5
            have hok : ∀ c, (s.attempt_to_reuse_connection resource gateway
                expected_attempts).1 = Except.error c →
                  c = ConnlibError.tooManyConnectionRequests := by
              intro c hc
              rcases h6 : s.peers.lookup gateway with _ | ips
              · by_cases h7 : ClientState.GATEWAY_TIMERS_CAPACITY ≤
                    s.gateway_awaiting_connection_timers.length
                      ∧ gateway ∉ s.gateway_awaiting_connection_timers
                · simp [ClientState.attempt_to_reuse_connection, h1, h2, h3, h4,
                    h5m, h6, h7] at hc
                  exact hc.symm
                · simp [ClientState.attempt_to_reuse_connection, h1, h2, h3, h4,
                    h5m, h6, h7] at hc
              · simp [ClientState.attempt_to_reuse_connection, h1, h2, h3, h4,
                  h5m, h6] at hc
            refine ⟨?_, ?_, ?_, ?_⟩
            · refine iff_of_false (fun habs => by cases hok _ habs) (by simp)
            · refine iff_of_false (fun habs => by cases hok _ habs) ?_
              simp [h3, h4]
            · refine iff_of_false (fun habs => by cases hok _ habs) ?_
              rintro ⟨d2, -, hd2, -, -, hg⟩
              cases hd2
              rw [h5] at hg
              cases hg
            · intro habs
              cases hok _ habs
        · have hres : (s.attempt_to_reuse_connection resource gateway
              expected_attempts).1 =
                Except.error ConnlibError.unexpectedConnectionDetails := by
            simp [ClientState.attempt_to_reuse_connection, h1, h2, h3, h4]
          refine ⟨by rw [hres]; simp, ?_, ?_,
            fun habs => absurd (hres ▸ habs) (by simp)⟩
          · rw [hres]
            simp [h3, h4]
          · rw [hres]
            refine iff_of_false (by simp) ?_
            rintro ⟨d2, -, hd2, -, ha, -⟩
            cases hd2
            exact h4 ha

/-- Witness for C9 at a concrete state: resource 5 is known and awaiting with
3 attempts, gateway 9 is already awaiting a connection, so the reuse attempt
fails with `PendingConnection` and removes the per-resource awaiting state. -/
theorem attempt_to_reuse_connection_error_spec_witness :
    ((ClientState.mk
        [(5, AwaitingConnectionDetails.mk 3 false none [])] [5] [9] [9] []
        [] [(5, ResourceDescription.cidr 5 77)] []).attempt_to_reuse_connection
          5 9 3).2.awaiting_connection.lookup 5 = none :=
  (attempt_to_reuse_connection_error_spec
    (ClientState.mk [(5, AwaitingConnectionDetails.mk 3 false none [])] [5] [9] [9]
      [] [] [(5, ResourceDescription.cidr 5 77)] []) 5 9 3).2.2.2 rfl

/-- C10: when `attempt_to_reuse_connection` fails with
`UnexpectedConnectionDetails` because the recorded attempt count differs from
`expected_attempts`, the awaiting-connection entry survives but its
`response_received` flag has been set, so a subsequent ticker firing for that
resource is suppressed (no `ConnectionIntent` event is emitted). -/
theorem attempt_to_reuse_connection_mismatch_nonatomic (s : ClientState)
    (resource gateway expected_attempts : Nat) (desc : ResourceDescription)
    (d : AwaitingConnectionDetails)
    (h1 : s.resource_ids.lookup resource = some desc)
    (h2 : s.awaiting_connection.lookup resource = some d)
    (h3 : s.is_connected_to resource d.domain = false)
    (h4 : d.total_attemps ≠ expected_attempts) :
    (s.attempt_to_reuse_connection resource gateway expected_attempts).1 =
      Except.error ConnlibError.unexpectedConnectionDetails ∧
    (s.attempt_to_reuse_connection resource gateway
        expected_attempts).2.awaiting_connection.lookup resource =
      some { d with response_received := true } ∧
    ((s.attempt_to_reuse_connection resource gateway
        expected_attempts).2.handle_connection_tick resource).1 = none := by
  have hstate : (s.attempt_to_reuse_connection resource gateway
      expected_attempts).2.awaiting_connection =
        mapUpdate s.awaiting_connection resource { d with response_received := true } := by
    simp [ClientState.attempt_to_reuse_connection, h1, h2, h3, h4]
  have hlook : (s.attempt_to_reuse_connection resource gateway
      expected_attempts).2.awaiting_connection.lookup resource =
        some { d with response_received := true } := by
    rw [hstate]
    exact lookup_mapUpdate _ _ _ (by rw [h2]; rfl)
  refine ⟨?_, hlook, ?_⟩
  · simp [ClientState.attempt_to_reuse_connection, h1, h2, h3, h4]
  · simp [ClientState.handle_connection_tick, hlook]

/-- Witness for C10 at a concrete state: resource 5 awaits with 2 attempts
and the reply claims 3 attempts; the error leaves the entry in place with
`response_received` set and the next tick emits nothing. -/
theorem attempt_to_reuse_connection_mismatch_nonatomic_witness :
    ((ClientState.mk
        [(5, AwaitingConnectionDetails.mk 2 false none [])] [5] [] [] [] []
        [(5, ResourceDescription.cidr 5 77)] []).attempt_to_reuse_connection
          5 9 3).1 = Except.error ConnlibError.unexpectedConnectionDetails ∧
    (((ClientState.mk
        [(5, AwaitingConnectionDetails.mk 2 false none [])] [5] [] [] [] []
        [(5, ResourceDescription.cidr 5 77)] []).attempt_to_reuse_connection
          5 9 3).2.handle_connection_tick 5).1 = none := by
  have h := attempt_to_reuse_connection_mismatch_nonatomic
    (ClientState.mk [(5, AwaitingConnectionDetails.mk 2 false none [])] [5] [] [] []
      [] [(5, ResourceDescription.cidr 5 77)] []) 5 9 3
    (ResourceDescription.cidr 5 77) (AwaitingConnectionDetails.mk 2 false none [])
    rfl rfl rfl (by decide)
  exact ⟨h.1, h.2.2⟩

/-- The ALLOCATE success reply of scenario S4: `LIFETIME = 600 s`, one
server-reflexive address and one IPv4 relay address. -/
def allocateReply600 : StunMessage :=
  StunMessage.mk .successResponse .allocate 0
    [.lifetime 600000, .xorMappedAddress (.v4 50), .xorRelayAddress (.v4 60)]

/-- The request produced by `authenticate` for a message whose own attributes
survive the credential strip (ALLOCATE and REFRESH requests). -/
def authedRequest (method : StunMethod) (tid : Nat) (u r p : String)
    (nonce : Option String) : StunMessage :=
  { cls := .request, method := method, transactionId := tid,
    attributes := [.requestedTransport 17, .additionalAddressFamily .v6,
      .username u, .realm r] ++ (nonce.map Attribute.nonce).toList
      ++ [.messageIntegrity u r p] }

/-- Update with a non-advancing clock is the identity. -/
theorem update_now_of_le (a : Allocation) (now : Nat) (h : now ≤ a.last_now) :
    a.update_now now = a := by
  simp [Allocation.update_now, h]

/-- Field values of a freshly created allocation: the initial ALLOCATE is
authenticated, queued and recorded, everything else is empty. -/
theorem new_fields (server : SocketAddr) (u p r : String) (now : Nat) :
    (Allocation.new server u p r now).server = server ∧
    (Allocation.new server u p r now).sent_requests =
      [⟨0, authedRequest .allocate 0 u r p none, now, 1000⟩] ∧
    (Allocation.new server u p r now).buffered_transmits =
      [⟨server, authedRequest .allocate 0 u r p none⟩] ∧
    (Allocation.new server u p r now).last_now = now ∧
    (Allocation.new server u p r now).channel_bindings.inner = [] ∧
    (Allocation.new server u p r now).buffered_channel_bindings.items = [] ∧
    (Allocation.new server u p r now).last_srflx_candidate = none ∧
    (Allocation.new server u p r now).ip4_allocation = none ∧
    (Allocation.new server u p r now).ip6_allocation = none ∧
    (Allocation.new server u p r now).allocation_lifetime = none ∧
    (Allocation.new server u p r now).events = [] ∧
    (Allocation.new server u p r now).nonce = none ∧
    (Allocation.new server u p r now).username = u ∧
    (Allocation.new server u p r now).password = p ∧
    (Allocation.new server u p r now).realm = r ∧
    (Allocation.new server u p r now).nextId = 1 := by
  refine ⟨?_, ?_, ?_, ?_, ?_, ?_, ?_, ?_, ?_, ?_, ?_, ?_, ?_, ?_, ?_, ?_⟩ <;>
    simp [Allocation.new, Allocation.authenticate_and_queue, Allocation.authenticate,
      ExponentialBackoff.next_backoff, ExponentialBackoff.interval, REQUEST_TIMEOUT,
      BACKOFF_MAX_ELAPSED, make_allocate_request, ChannelBindings.default,
      authedRequest]

/-- The state after `handle_input` consumes the scenario ALLOCATE success:
lifetime recorded, both candidates installed and announced. -/
def afterAllocSuccess (a : Allocation) (local_ : SocketAddr) (now : Nat) :
    Allocation :=
  { a with
    sent_requests := [],
    backoff := a.backoff.reset,
    allocation_lifetime := some (now, 600000),
    last_srflx_candidate := some (.serverReflexive (.v4 50) local_),
    ip4_allocation := some (.relayed (.v4 60)),
    events := a.events ++ [.new (.serverReflexive (.v4 50) local_),
      .new (.relayed (.v4 60))] }

/-- The state after `handle_timeout` queues a REFRESH. -/
def afterRefreshQueued (a : Allocation) (now : Nat) : Allocation :=
  { a with
    last_now := now,
    backoff := ⟨now, now, 1⟩,
    nextId := a.nextId + 1,
    sent_requests := [⟨a.nextId,
      authedRequest .refresh a.nextId a.username a.realm a.password a.nonce,
      now, 1000⟩],
    buffered_transmits := a.buffered_transmits ++ [⟨a.server,
      authedRequest .refresh a.nextId a.username a.realm a.password a.nonce⟩] }

/-- Processing the scenario ALLOCATE success against a state whose only sent
request carries transaction id 0: the request is consumed, the lifetime is
recorded and both new candidates are emitted. -/
theorem handle_input_allocateReply600 (a : Allocation) (local_ : SocketAddr)
    (now : Nat) (req : StunMessage) (sa bo : Nat)
    (hreq : a.sent_requests = [⟨0, req, sa, bo⟩])
    (hnow : now ≤ a.last_now)
    (hring : a.buffered_channel_bindings.items = [])
    (hsrflx : a.last_srflx_candidate = none)
    (hip4 : a.ip4_allocation = none) :
    a.handle_input a.server local_ allocateReply600 now =
      (true, afterAllocSuccess a local_ now) := by
  simp [Allocation.handle_input, Allocation.update_now, hnow, hreq, hring, hsrflx,
    hip4, allocateReply600, StunMessage.getErrorCode, StunMessage.getLifetime,
    update_candidate, srflx_candidate, relay_candidate, SocketAddr.is_ipv4,
    SocketAddr.is_ipv6, Allocation.drainBuffered, afterAllocSuccess]

/-- Servicing a timeout when the allocation is due for a refresh (no request
in flight, lifetime not yet expired, half-lifetime passed, clock advanced):
exactly one authenticated REFRESH is queued. -/
theorem handle_timeout_due (a : Allocation) (now rcv lt : Nat)
    (hreq : a.sent_requests = [])
    (hlife : a.allocation_lifetime = some (rcv, lt))
    (hnexp : ¬(rcv + lt ≤ now))
    (hdue : rcv + lt / 2 ≤ now)
    (hchan : a.channel_bindings.inner = [])
    (hadv : a.last_now < now) :
    a.handle_timeout now = afterRefreshQueued a now := by
  have hns : ¬(now ≤ a.last_now) := by omega
  simp [Allocation.handle_timeout, Allocation.update_now, hns, hreq, hlife, hchan,
    Allocation.allocation_expires_at, Allocation.refresh_allocation_at,
    Allocation.refresh_in_flight, Allocation.resendLoop,
    Allocation.authenticate_and_queue, Allocation.authenticate,
    Allocation.channel_binding_in_flight_by_number,
    ChannelBindings.channels_to_refresh, ExponentialBackoff.next_backoff,
    ExponentialBackoff.reset, ExponentialBackoff.interval, REQUEST_TIMEOUT,
    BACKOFF_MAX_ELAPSED, make_refresh_request, hnexp, hdue, Option.any,
    authedRequest, afterRefreshQueued]

/-- Servicing a timeout while a non-timed-out REFRESH is in flight (lifetime
not expired) leaves the allocation untouched. -/
theorem handle_timeout_inflight (a : Allocation) (now rcv lt tid sa bo : Nat)
    (msg : StunMessage)
    (hreq : a.sent_requests = [⟨tid, msg, sa, bo⟩])
    (hmsg : msg.method = .refresh)
    (hnto : ¬(bo ≤ now - sa))
    (hlife : a.allocation_lifetime = some (rcv, lt))
    (hnexp : ¬(rcv + lt ≤ now))
    (hlast : now ≤ a.last_now)
    (hchan : a.channel_bindings.inner = []) :
    a.handle_timeout now = a := by
  simp [Allocation.handle_timeout, Allocation.update_now, hlast, hreq, hmsg, hnto,
    hlife, hchan, Allocation.allocation_expires_at, Allocation.refresh_allocation_at,
    Allocation.refresh_in_flight, Allocation.resendLoop,
    Allocation.channel_binding_in_flight_by_number,
    ChannelBindings.channels_to_refresh, hnexp, Option.any]

/-- C4: for an allocation whose ALLOCATE success carried `LIFETIME = 600 s`
and was received at time `T` with no other requests outstanding,
`poll_timeout` returns `T + 300 s`; `handle_timeout (T + 300 s)` queues
exactly one REFRESH, and a repeated `handle_timeout` at the same instant
queues nothing further while that REFRESH is in flight. -/
theorem refresh_at_half_lifetime (T : Nat) (server local_ : SocketAddr)
    (u p r : String) :
    ((Allocation.new server u p r T).handle_input server local_ allocateReply600
        T).2.poll_timeout = some (T + 300000) ∧
    (((Allocation.new server u p r T).handle_input server local_ allocateReply600
        T).2.handle_timeout (T + 300000)).buffered_transmits.countP
          (fun t => t.payload.method == StunMethod.refresh) = 1 ∧
    ((((Allocation.new server u p r T).handle_input server local_ allocateReply600
        T).2.handle_timeout (T + 300000)).handle_timeout
          (T + 300000)).buffered_transmits =
      (((Allocation.new server u p r T).handle_input server local_ allocateReply600
        T).2.handle_timeout (T + 300000)).buffered_transmits := by
  obtain ⟨hsrv, hsent, htr, hlast, hcb, hring, hsrflx, hip4, hip6, hlife, hev,
    hnon, husr, hpw, hrealm, hnid⟩ := new_fields server u p r T
  have h1 := handle_input_allocateReply600 (Allocation.new server u p r T) local_
    T _ _ _ hsent (by rw [hlast]) hring hsrflx hip4
  rw [hsrv] at h1
  rw [h1]
  have h2 := handle_timeout_due
    (afterAllocSuccess (Allocation.new server u p r T) local_ T)
    (T + 300000) T 600000 (by simp [afterAllocSuccess]) (by simp [afterAllocSuccess])
    (by omega) (by omega) (by simp [afterAllocSuccess, hcb])
    (by simp [afterAllocSuccess, hlast])
  refine ⟨?_, ?_, ?_⟩
  · have e1 : (afterAllocSuccess (Allocation.new server u p r T) local_
        T).allocation_lifetime = some (T, 600000) := rfl
    have e2 : (afterAllocSuccess (Allocation.new server u p r T) local_
        T).sent_requests = [] := rfl
    show (afterAllocSuccess (Allocation.new server u p r T) local_
      T).poll_timeout = some (T + 300000)
    simp only [Allocation.poll_timeout, Allocation.refresh_in_flight,
      Allocation.refresh_allocation_at, e1, e2, List.any_nil, Bool.not_false,
      if_true, List.foldl_nil, Option.map_some]
    norm_num
  · rw [show ((true, afterAllocSuccess (Allocation.new server u p r T) local_ T).2
        : Allocation) = afterAllocSuccess (Allocation.new server u p r T) local_ T
        from rfl, h2]
    have e3 : (afterRefreshQueued (afterAllocSuccess
        (Allocation.new server u p r T) local_ T) (T + 300000)).buffered_transmits =
        (Allocation.new server u p r T).buffered_transmits
          ++ [⟨(afterAllocSuccess (Allocation.new server u p r T) local_ T).server,
            authedRequest .refresh
              (afterAllocSuccess (Allocation.new server u p r T) local_ T).nextId
              (afterAllocSuccess (Allocation.new server u p r T) local_ T).username
              (afterAllocSuccess (Allocation.new server u p r T) local_ T).realm
              (afterAllocSuccess (Allocation.new server u p r T) local_ T).password
              (afterAllocSuccess (Allocation.new server u p r T) local_
                T).nonce⟩] := rfl
    rw [e3, htr]
    simp only [List.countP_append, List.countP_cons, List.countP_nil,
      authedRequest]
    simp
  · rw [show ((true, afterAllocSuccess (Allocation.new server u p r T) local_ T).2
        : Allocation) = afterAllocSuccess (Allocation.new server u p r T) local_ T
        from rfl, h2]
    have h3 := handle_timeout_inflight
      (afterRefreshQueued (afterAllocSuccess (Allocation.new server u p r T)
        local_ T) (T + 300000))
      (T + 300000) T 600000
      (afterAllocSuccess (Allocation.new server u p r T) local_ T).nextId
      (T + 300000) 1000
      (authedRequest .refresh
        (afterAllocSuccess (Allocation.new server u p r T) local_ T).nextId
        (afterAllocSuccess (Allocation.new server u p r T) local_ T).username
        (afterAllocSuccess (Allocation.new server u p r T) local_ T).realm
        (afterAllocSuccess (Allocation.new server u p r T) local_ T).password
        (afterAllocSuccess (Allocation.new server u p r T) local_ T).nonce)
      rfl rfl (by omega) rfl (by omega) (le_refl _)
      ((rfl : (afterRefreshQueued (afterAllocSuccess
          (Allocation.new server u p r T) local_ T)
          (T + 300000)).channel_bindings.inner =
        (Allocation.new server u p r T).channel_bindings.inner).trans hcb)
    rw [h3]

/-- Advancing the clock touches only `last_now` and the backoff: all other
fields are preserved. -/
theorem update_now_fields (a : Allocation) (now : Nat) :
    (a.update_now now).server = a.server ∧
    (a.update_now now).sent_requests = a.sent_requests ∧
    (a.update_now now).buffered_transmits = a.buffered_transmits ∧
    (a.update_now now).events = a.events ∧
    (a.update_now now).nonce = a.nonce ∧
    (a.update_now now).username = a.username ∧
    (a.update_now now).password = a.password ∧
    (a.update_now now).realm = a.realm ∧
    (a.update_now now).nextId = a.nextId ∧
    (a.update_now now).channel_bindings = a.channel_bindings ∧
    (a.update_now now).buffered_channel_bindings = a.buffered_channel_bindings ∧
    (a.update_now now).ip4_allocation = a.ip4_allocation ∧
    (a.update_now now).ip6_allocation = a.ip6_allocation ∧
    (a.update_now now).last_srflx_candidate = a.last_srflx_candidate ∧
    (a.update_now now).allocation_lifetime = a.allocation_lifetime := by
  unfold Allocation.update_now
  split <;> simp

/-- A reply carrying error code 401 whose original request already contained
a `NONCE` is consumed without queueing any retry: the transaction is removed,
the backoff reset, and nothing else changes. -/
theorem handle_input_401_with_nonce_no_retry (a : Allocation)
    (from_ local_ : SocketAddr) (msg : StunMessage) (now : Nat)
    (entry : SentRequest)
    (hfrom : from_ = a.server)
    (hfind : a.sent_requests.find? (fun r => r.tid = msg.transactionId) =
      some entry)
    (hnonce : entry.request.getNonce.isSome)
    (herr : msg.getErrorCode = some 401) :
    (a.handle_input from_ local_ msg now).1 = true ∧
    (a.handle_input from_ local_ msg now).2.buffered_transmits =
      a.buffered_transmits ∧
    (a.handle_input from_ local_ msg now).2.sent_requests =
      a.sent_requests.filter (fun r => r.tid ≠ msg.transactionId) := by
  obtain ⟨hsrv, hsent, htr, -⟩ := update_now_fields a now
  subst hfrom
  simp [Allocation.handle_input, hsrv, hsent, htr, hfind, hnonce, herr]

/-- A 401 error reply carrying a fresh nonce and no `REALM` attribute. -/
def err401 (tid : Nat) (n : String) : StunMessage :=
  { cls := .errorResponse, method := .allocate, transactionId := tid,
    attributes := [.errorCode 401, .nonce n] }

/-- The state after a 401 reply on a nonce-less request triggers a
re-authenticated retry: the new nonce is adopted and the original request is
re-queued authenticated with it. -/
def afterNonceRetry (a : Allocation) (n : String) : Allocation :=
  { a with
    nonce := some n,
    nextId := a.nextId + 1,
    backoff := ⟨a.backoff.now, a.backoff.now, 1⟩,
    sent_requests := [⟨a.nextId,
      authedRequest .allocate a.nextId a.username a.realm a.password (some n),
      a.last_now, 1000⟩],
    buffered_transmits := a.buffered_transmits ++ [⟨a.server,
      authedRequest .allocate a.nextId a.username a.realm a.password (some n)⟩] }

/-- A 401 reply to the sole outstanding ALLOCATE, which carried no `NONCE`,
adopts the offered nonce and retries the request authenticated with it. -/
theorem handle_input_err401_no_prior_nonce (a : Allocation)
    (local_ : SocketAddr) (now tid tid2 sa bo : Nat) (n u0 r0 p0 : String)
    (hreq : a.sent_requests =
      [⟨tid, authedRequest .allocate tid2 u0 r0 p0 none, sa, bo⟩])
    (hnow : now ≤ a.last_now) :
    a.handle_input a.server local_ (err401 tid n) now =
      (true, afterNonceRetry a n) := by
  simp [Allocation.handle_input, Allocation.update_now, hnow, hreq, err401,
    afterNonceRetry, authedRequest, StunMessage.getErrorCode,
    StunMessage.getNonce, StunMessage.getRealm, Allocation.authenticate_and_queue,
    Allocation.authenticate, ExponentialBackoff.next_backoff,
    ExponentialBackoff.reset, ExponentialBackoff.interval, REQUEST_TIMEOUT,
    BACKOFF_MAX_ELAPSED]

/-- C2: a reply matching a known transaction id that carries error code 401
is consumed without queueing any retry whenever the original request already
contained a `NONCE`; and in the S5 scenario, the initial nonce-less ALLOCATE
answered 401 with nonce `n1` is retried carrying `n1`, while a second 401
reply produces no further outbound request. -/
theorem unauthorized_with_nonce_stops_retry :
    (∀ (a : Allocation) (from_ local_ : SocketAddr) (msg : StunMessage)
        (now : Nat) (entry : SentRequest),
      from_ = a.server →
      a.sent_requests.find? (fun r => r.tid = msg.transactionId) = some entry →
      entry.request.getNonce.isSome →
      msg.getErrorCode = some 401 →
      (a.handle_input from_ local_ msg now).1 = true ∧
      (a.handle_input from_ local_ msg now).2.buffered_transmits =
        a.buffered_transmits ∧
      (a.handle_input from_ local_ msg now).2.sent_requests =
        a.sent_requests.filter (fun r => r.tid ≠ msg.transactionId)) ∧
    (∀ (server local_ : SocketAddr) (u p r : String),
      ((Allocation.new server u p r 0).buffered_transmits.map
        (fun t => (t.payload.method, t.payload.getNonce)) =
          [(.allocate, none)]) ∧
      (((Allocation.new server u p r 0).handle_input server local_
          (err401 0 "n1") 0).2.buffered_transmits.map
            (fun t => (t.payload.method, t.payload.getNonce)) =
          [(.allocate, none), (.allocate, some "n1")]) ∧
      ((((Allocation.new server u p r 0).handle_input server local_
          (err401 0 "n1") 0).2.handle_input server local_
            (err401 1 "n2") 0).2.buffered_transmits =
        ((Allocation.new server u p r 0).handle_input server local_
          (err401 0 "n1") 0).2.buffered_transmits)) := by
  refine ⟨handle_input_401_with_nonce_no_retry, ?_⟩
  intro server local_ u p r
  obtain ⟨hsrv, hsent, htr, hlast, hcb, hring, hsrflx, hip4, hip6, hlife, hev,
    hnon, husr, hpw, hrealm, hnid⟩ := new_fields server u p r 0
  have h1 := handle_input_err401_no_prior_nonce (Allocation.new server u p r 0)
    local_ 0 0 0 0 1000 "n1" u r p hsent (by rw [hlast])
  rw [hsrv] at h1
  refine ⟨?_, ?_, ?_⟩
  · rw [htr]
    simp [authedRequest, StunMessage.getNonce]
  · rw [h1]
    have e1 : ((true, afterNonceRetry (Allocation.new server u p r 0) "n1").2
        : Allocation).buffered_transmits =
        (Allocation.new server u p r 0).buffered_transmits
          ++ [⟨(Allocation.new server u p r 0).server,
            authedRequest .allocate (Allocation.new server u p r 0).nextId
              (Allocation.new server u p r 0).username
              (Allocation.new server u p r 0).realm
              (Allocation.new server u p r 0).password (some "n1")⟩] := rfl
    rw [e1, htr, hnid, husr, hrealm, hpw]
    simp [authedRequest, StunMessage.getNonce]
  · rw [h1]
    have hAs : (afterNonceRetry (Allocation.new server u p r 0)
        "n1").sent_requests =
        [⟨1, authedRequest .allocate 1 u r p (some "n1"), 0, 1000⟩] := by
      have e2 : (afterNonceRetry (Allocation.new server u p r 0)
          "n1").sent_requests =
          [⟨(Allocation.new server u p r 0).nextId,
            authedRequest .allocate (Allocation.new server u p r 0).nextId
              (Allocation.new server u p r 0).username
              (Allocation.new server u p r 0).realm
              (Allocation.new server u p r 0).password (some "n1"),
            (Allocation.new server u p r 0).last_now, 1000⟩] := rfl
      rw [e2, hnid, husr, hrealm, hpw, hlast]
    have h2 := handle_input_401_with_nonce_no_retry
      (afterNonceRetry (Allocation.new server u p r 0) "n1") server local_
      (err401 1 "n2") 0
      ⟨1, authedRequest .allocate 1 u r p (some "n1"), 0, 1000⟩
      hsrv.symm (by rw [hAs]; rfl)
      (by simp [authedRequest, StunMessage.getNonce]) rfl
    exact h2.2.1

/-- Witness for C2 at concrete credentials: the retried ALLOCATE after the
first 401 carries nonce `n1`, and the second 401 leaves the transmit queue
unchanged. -/
theorem unauthorized_with_nonce_stops_retry_witness :
    ((((Allocation.new (.v4 9) "user" "pass" "realm" 0).handle_input (.v4 9)
        (.v4 7) (err401 0 "n1") 0).2.handle_input (.v4 9) (.v4 7)
          (err401 1 "n2") 0).2.buffered_transmits =
      ((Allocation.new (.v4 9) "user" "pass" "realm" 0).handle_input (.v4 9)
        (.v4 7) (err401 0 "n1") 0).2.buffered_transmits) :=
  (unauthorized_with_nonce_stops_retry.2 (.v4 9) (.v4 7) "user" "pass"
    "realm").2.2

/-- C5: a non-authentication error reply (neither 401 nor 438) to a REFRESH
invalidates the allocation: each present relayed candidate emits exactly one
`Invalid` event (IPv4 first), the channel bindings, lifetime and sent
requests are cleared, and a fresh authenticated ALLOCATE is queued. -/
theorem refresh_error_invalidates (a : Allocation) (from_ local_ : SocketAddr)
    (msg : StunMessage) (now : Nat) (entry : SentRequest) (e : Nat)
    (hfrom : from_ = a.server)
    (hfind : a.sent_requests.find? (fun r => r.tid = msg.transactionId) =
      some entry)
    (herr : msg.getErrorCode = some e)
    (h401 : e ≠ 401) (h438 : e ≠ 438)
    (hmeth : msg.method = .refresh) :
    (a.handle_input from_ local_ msg now).1 = true ∧
    (a.handle_input from_ local_ msg now).2.events =
      a.events ++ (a.ip4_allocation.map CandidateEvent.invalid).toList
        ++ (a.ip6_allocation.map CandidateEvent.invalid).toList ∧
    (a.handle_input from_ local_ msg now).2.channel_bindings =
      ChannelBindings.default ∧
    (a.handle_input from_ local_ msg now).2.allocation_lifetime = none ∧
    (a.handle_input from_ local_ msg now).2.ip4_allocation = none ∧
    (a.handle_input from_ local_ msg now).2.ip6_allocation = none ∧
    (a.handle_input from_ local_ msg now).2.sent_requests =
      [⟨a.nextId, authedRequest .allocate a.nextId a.username a.realm a.password
        a.nonce, (a.update_now now).last_now, 1000⟩] ∧
    (a.handle_input from_ local_ msg now).2.buffered_transmits =
      a.buffered_transmits ++ [⟨a.server,
        authedRequest .allocate a.nextId a.username a.realm a.password
          a.nonce⟩] := by
  obtain ⟨hsrv, hsent, htr, hev, hnon, husr, hpw, hrealm, hnid, hcb, hring,
    hip4, hip6, hsrflx, hlife⟩ := update_now_fields a now
  subst hfrom
  simp [Allocation.handle_input, hsrv, hsent, htr, hev, hnon, husr, hpw, hrealm,
    hnid, hip4, hip6, hfind, herr, h401, h438, hmeth,
    Allocation.invalidate_allocation, Allocation.authenticate_and_queue,
    Allocation.authenticate, ExponentialBackoff.next_backoff,
    ExponentialBackoff.reset, ExponentialBackoff.interval, REQUEST_TIMEOUT,
    BACKOFF_MAX_ELAPSED, make_allocate_request, authedRequest]

/-- Witness for C5: a 437 reply to the in-flight REFRESH of a dual-family
allocation emits exactly the two `Invalid` events. -/
theorem refresh_error_invalidates_witness :
    ((Allocation.mk (.v4 1) none (some (.relayed (.v4 4)))
        (some (.relayed (.v6 6))) (some (0, 600000)) [] [] ⟨0, 0, 0⟩
        [⟨5, authedRequest .refresh 5 "u" "r" "p" none, 0, 1000⟩]
        ChannelBindings.default ⟨100, []⟩ 0 "u" "p" "r" none 6).handle_input
          (.v4 1) (.v4 2)
          (StunMessage.mk .errorResponse .refresh 5 [.errorCode 437])
          0).2.events =
      [.invalid (.relayed (.v4 4)), .invalid (.relayed (.v6 6))] := by
  have h := refresh_error_invalidates
    (Allocation.mk (.v4 1) none (some (.relayed (.v4 4)))
      (some (.relayed (.v6 6))) (some (0, 600000)) [] [] ⟨0, 0, 0⟩
      [⟨5, authedRequest .refresh 5 "u" "r" "p" none, 0, 1000⟩]
      ChannelBindings.default ⟨100, []⟩ 0 "u" "p" "r" none 6)
    (.v4 1) (.v4 2) (StunMessage.mk .errorResponse .refresh 5 [.errorCode 437])
    0 ⟨5, authedRequest .refresh 5 "u" "r" "p" none, 0, 1000⟩ 437
    rfl rfl rfl (by decide) (by decide) rfl
  rw [h.2.1]
  rfl

/-- Channel-data framing round-trips for in-range channel numbers and
payload lengths. -/
theorem ChannelData.decode_encode (n : Nat) (b : List Nat) (hn : n < 65536)
    (hb : b.length < 65536) :
    ChannelData.decode (ChannelData.encode n b) = some (n, b) := by
  unfold ChannelData.encode ChannelData.decode
  have h1 : n / 256 % 256 * 256 + n % 256 = n := by omega
  have h2 : b.length / 256 % 256 * 256 + b.length % 256 = b.length := by omega
  simp [h1, h2]

/-- In an association list with distinct keys, membership determines the
lookup. -/
theorem lookup_eq_of_mem_of_nodup {β : Type} (l : List (Nat × β)) (k : Nat)
    (v : β) (hmem : (k, v) ∈ l) (hnodup : (l.map Prod.fst).Nodup) :
    l.lookup k = some v := by
  induction l with
  | nil => cases hmem
  | cons e t ih =>
      obtain ⟨k1, v1⟩ := e
      simp only [List.map_cons, List.nodup_cons] at hnodup
      rcases List.mem_cons.mp hmem with heq | hmem2
      · obtain ⟨hk, hv⟩ := Prod.mk.injEq .. ▸ heq
        cases heq
        simp [List.lookup]
      · have hk : k ≠ k1 := by
          intro hkk
          subst hkk
          exact hnodup.1 (List.mem_map.mpr ⟨(k, v), hmem2, rfl⟩)
        have hne : (k == k1) = false := beq_eq_false_iff_ne.mpr hk
        simp only [List.lookup, hne]
        exact ih hmem2 hnodup.2

/-- C8: a channel-data message encoded with `encode_to_vec (p, b, now)` and
fed back through `try_decode` at `now` yields exactly `(p, b)` iff the
channel for `p` is bound at `now`; when no bound channel exists,
`encode_to_vec` returns `none`.  The hypotheses state the `HashMap` key
invariants (distinct 16-bit channel numbers) and that the payload fits the
16-bit length field of the framing. -/
theorem encode_decode_roundtrip (a : Allocation) (peer : SocketAddr)
    (b : List Nat) (now : Nat)
    (hnodup : (a.channel_bindings.inner.map Prod.fst).Nodup)
    (hkeys : ∀ k ∈ a.channel_bindings.inner.map Prod.fst, k < 65536)
    (hlen : b.length < 65536) :
    ((∃ frame, a.encode_to_vec peer b now = some frame ∧
        (a.channel_bindings.try_decode frame now).1 = some (peer, b)) ↔
      (a.channel_bindings.channel_to_peer peer now).isSome) ∧
    (a.channel_bindings.channel_to_peer peer now = none →
      a.encode_to_vec peer b now = none) := by
  constructor
  · constructor
    · rintro ⟨frame, henc, -⟩
      unfold Allocation.encode_to_vec at henc
      exact Option.isSome_iff_exists.mpr
        ⟨_, Option.map_eq_some'.mp henc |>.choose_spec.1⟩
    · intro hsome
      obtain ⟨n, hn⟩ := Option.isSome_iff_exists.mp hsome
      unfold ChannelBindings.channel_to_peer at hn
      obtain ⟨entry, hfindeq, -⟩ := Option.map_eq_some'.mp hn
      have hmem : entry ∈ a.channel_bindings.inner :=
        List.mem_of_find?_eq_some hfindeq
      have hconn : entry.2.connected_to_peer peer now = true := by
        have := List.find?_some hfindeq
        simpa using this
      have hn16 : entry.1 < 65536 :=
        hkeys entry.1 (List.mem_map.mpr ⟨entry, hmem, rfl⟩)
      obtain ⟨⟨hpeer, hage⟩, hbound⟩ := by
        simpa [Channel.connected_to_peer] using hconn
      refine ⟨ChannelData.encode entry.1 b, ?_, ?_⟩
      · unfold Allocation.encode_to_vec ChannelBindings.channel_to_peer
        rw [hfindeq]
        rfl
      · unfold ChannelBindings.try_decode
        rw [ChannelData.decode_encode entry.1 b hn16 hlen]
        have hlook : a.channel_bindings.inner.lookup entry.1 = some entry.2 :=
          lookup_eq_of_mem_of_nodup _ _ _ (by simpa using hmem) hnodup
        simp only [ChannelBindings.get, hlook, hbound, if_true, hpeer]
  · intro hnone
    simp [Allocation.encode_to_vec, hnone]

/-- Witness for C8: a table with channel 0x4000 bound to the peer
round-trips the payload `[1, 2, 3]`. -/
theorem encode_decode_roundtrip_witness :
    ∃ frame, (Allocation.mk (.v4 1) none (some (.relayed (.v4 4))) none
        (some (0, 600000)) [] [] ⟨0, 0, 0⟩ []
        ⟨[(0x4000, ⟨.v4 77, true, 5, 5⟩)], 0x4001⟩ ⟨100, []⟩ 5 "u" "p" "r"
        none 1).encode_to_vec (.v4 77) [1, 2, 3] 6 = some frame ∧
      ((Allocation.mk (.v4 1) none (some (.relayed (.v4 4))) none
        (some (0, 600000)) [] [] ⟨0, 0, 0⟩ []
        ⟨[(0x4000, ⟨.v4 77, true, 5, 5⟩)], 0x4001⟩ ⟨100, []⟩ 5 "u" "p" "r"
        none 1).channel_bindings.try_decode frame 6).1 = some (.v4 77, [1, 2, 3]) :=
  ((encode_decode_roundtrip
    (Allocation.mk (.v4 1) none (some (.relayed (.v4 4))) none
      (some (0, 600000)) [] [] ⟨0, 0, 0⟩ []
      ⟨[(0x4000, ⟨.v4 77, true, 5, 5⟩)], 0x4001⟩ ⟨100, []⟩ 5 "u" "p" "r"
      none 1) (.v4 77) [1, 2, 3] 6 (by decide) (by decide) (by decide)).1.mpr
    (by decide))

/-- A slot that the channel scan refuses: occupied by a channel that cannot
be rebound at `now`. -/
def slotBlocked (inner : List (Nat × Channel)) (now k : Nat) : Prop :=
  ∃ ch, inner.lookup k = some ch ∧ ch.can_rebind now = false

/-- A slot that the channel scan accepts: empty or occupied by a rebindable
channel. -/
def slotFree (inner : List (Nat × Channel)) (now m : Nat) : Prop :=
  inner.lookup m = none ∨
    ∃ ch, inner.lookup m = some ch ∧ ch.can_rebind now = true

/-- Characterization of the scan loop of `new_channel_to_peer`: starting
below `LAST_CHANNEL` it returns the smallest free-or-rebindable slot in
`[c, LAST_CHANNEL)`, and returns `none` iff every slot of that interval is
blocked.  The scan never wraps below `c`. -/
theorem scan_spec (inner : List (Nat × Channel)) (now c : Nat)
    (hc : c < ChannelBindings.LAST_CHANNEL) :
    (∀ m, (ChannelBindings.scan inner now c).1 = some m →
      c ≤ m ∧ m < ChannelBindings.LAST_CHANNEL ∧ slotFree inner now m ∧
        ∀ k, c ≤ k → k < m → slotBlocked inner now k) ∧
    ((ChannelBindings.scan inner now c).1 = none ↔
      ∀ k, c ≤ k → k < ChannelBindings.LAST_CHANNEL →
        slotBlocked inner now k) := by
  rcases hl : inner.lookup c with _ | ch
  · have hs : ChannelBindings.scan inner now c = (some c, c) := by
      unfold ChannelBindings.scan
      simp [hl]
    rw [hs]
    constructor
    · intro m hm
      cases hm
      exact ⟨le_refl c, hc, Or.inl hl,
        fun k hk1 hk2 => absurd (lt_of_le_of_lt hk1 hk2) (lt_irrefl c)⟩
    · refine iff_of_false (by simp) ?_
      intro hall
      obtain ⟨ch, hch, -⟩ := hall c (le_refl c) hc
      rw [hl] at hch
      cases hch
  · cases hr : ch.can_rebind now with
    | true =>
        have hs : ChannelBindings.scan inner now c = (some c, c) := by
          unfold ChannelBindings.scan
          simp [hl, hr]
        rw [hs]
        constructor
        · intro m hm
          cases hm
          exact ⟨le_refl c, hc, Or.inr ⟨ch, hl, hr⟩,
            fun k hk1 hk2 => absurd (lt_of_le_of_lt hk1 hk2) (lt_irrefl c)⟩
        · refine iff_of_false (by simp) ?_
          intro hall
          obtain ⟨ch2, hch2, hrb2⟩ := hall c (le_refl c) hc
          rw [hl] at hch2
          cases hch2
          rw [hr] at hrb2
          cases hrb2
    | false =>
        by_cases hlast : ChannelBindings.LAST_CHANNEL ≤ c + 1
        · have hs : ChannelBindings.scan inner now c = (none, c + 1) := by
            unfold ChannelBindings.scan
            simp [hl, hr, hlast]
          rw [hs]
          constructor
          · intro m hm
            exact absurd hm (by simp)
          · refine iff_of_true rfl ?_
            intro k hk1 hk2
            have hkc : k = c := by omega
            subst hkc
            exact ⟨ch, hl, hr⟩
        · have hc1 : c + 1 < ChannelBindings.LAST_CHANNEL := by omega
          have ih := scan_spec inner now (c + 1) hc1
          have hs : ChannelBindings.scan inner now c =
              ChannelBindings.scan inner now (c + 1) := by
            conv => lhs; unfold ChannelBindings.scan
            simp [hl, hr, hlast]
          rw [hs]
          constructor
          · intro m hm
            obtain ⟨h1, h2, h3, h4⟩ := ih.1 m hm
            refine ⟨by omega, h2, h3, ?_⟩
            intro k hk1 hk2
            rcases Nat.eq_or_lt_of_le hk1 with heq | hlt
            · cases heq
              exact ⟨ch, hl, hr⟩
            · exact h4 k (by omega) hk2
          · rw [ih.2]
            constructor
            · intro hall k hk1 hk2
              rcases Nat.eq_or_lt_of_le hk1 with heq | hlt
              · cases heq
                exact ⟨ch, hl, hr⟩
              · exact hall k (by omega) hk2
            · intro hall k hk1 hk2
              exact hall k (by omega) hk2
termination_by ChannelBindings.LAST_CHANNEL - c
decreasing_by omega

/-- C3 counterexample: with `next_channel = 0x4FFE` and only slot 0x4FFE
occupied by a live, non-rebindable channel, `new_channel_to_peer` returns
`none` even though slot 0x4000 is empty — the scan does not wrap around, so
"returns none iff every slot over one full cycle is occupied by a live,
non-rebindable channel" is false on this input. -/
theorem new_channel_no_wraparound_counterexample :
    ((ChannelBindings.mk [(0x4FFE, ⟨.v4 7, true, 0, 0⟩)]
        0x4FFE).new_channel_to_peer (.v4 9) 0).1 = none ∧
    (ChannelBindings.mk [(0x4FFE, ⟨.v4 7, true, 0, 0⟩)]
        0x4FFE).inner.lookup 0x4000 = none := by
  constructor
  · have h1 : (0x4FFE : Nat) ≠ ChannelBindings.LAST_CHANNEL := by decide
    have h2 : ([(0x4FFE, (⟨.v4 7, true, 0, 0⟩ : Channel))].lookup 0x4FFE) =
        some ⟨.v4 7, true, 0, 0⟩ := by decide
    have h3 : (⟨.v4 7, true, 0, 0⟩ : Channel).can_rebind 0 = false := by decide
    have hs : ChannelBindings.scan [(0x4FFE, ⟨.v4 7, true, 0, 0⟩)] 0 0x4FFE =
        (none, 0x4FFF) := by
      unfold ChannelBindings.scan
      rw [h2]
      simp [h3, ChannelBindings.LAST_CHANNEL]
    unfold ChannelBindings.new_channel_to_peer
    simp only [h1, if_false, hs]
  · decide

/-- C3 (amended): when a channel number is returned it lies in
`[0x4000, 0x4FFE]` and is the smallest candidate at or after the effective
start (`next_channel`, or 0x4000 when `next_channel` sits at 0x4FFF) whose
slot is empty or rebindable; and `none` is returned iff every slot from that
start up to (but excluding) 0x4FFF is occupied by a live, non-rebindable
channel — the scan does not wrap around to slots below the start. -/
theorem new_channel_to_peer_spec (cb : ChannelBindings) (peer : SocketAddr)
    (now : Nat)
    (hup : cb.next_channel ≤ ChannelBindings.LAST_CHANNEL)
    (hlo : ChannelBindings.FIRST_CHANNEL ≤ cb.next_channel) :
    (∀ m, (cb.new_channel_to_peer peer now).1 = some m →
      ChannelBindings.FIRST_CHANNEL ≤ m ∧ m < ChannelBindings.LAST_CHANNEL ∧
      (if cb.next_channel = ChannelBindings.LAST_CHANNEL then
        ChannelBindings.FIRST_CHANNEL else cb.next_channel) ≤ m ∧
      slotFree cb.inner now m ∧
      ∀ k, (if cb.next_channel = ChannelBindings.LAST_CHANNEL then
          ChannelBindings.FIRST_CHANNEL else cb.next_channel) ≤ k → k < m →
        slotBlocked cb.inner now k) ∧
    ((cb.new_channel_to_peer peer now).1 = none ↔
      ∀ k, (if cb.next_channel = ChannelBindings.LAST_CHANNEL then
          ChannelBindings.FIRST_CHANNEL else cb.next_channel) ≤ k →
        k < ChannelBindings.LAST_CHANNEL → slotBlocked cb.inner now k) := by
  have hFL : ChannelBindings.FIRST_CHANNEL < ChannelBindings.LAST_CHANNEL := by
    decide
  simp only [ChannelBindings.new_channel_to_peer]
  set start := (if cb.next_channel = ChannelBindings.LAST_CHANNEL then
    ChannelBindings.FIRST_CHANNEL else cb.next_channel) with hstartdef
  have hstartlt : start < ChannelBindings.LAST_CHANNEL := by
    rw [hstartdef]
    split
    · exact hFL
    · omega
  have hstartlo : ChannelBindings.FIRST_CHANNEL ≤ start := by
    rw [hstartdef]
    split
    · exact le_refl _
    · exact hlo
  obtain ⟨hsome, hnone⟩ := scan_spec cb.inner now start hstartlt
  rcases hscan : ChannelBindings.scan cb.inner now start with ⟨o, fin⟩
  rw [hscan] at hsome hnone
  cases o with
  | some c =>
      dsimp only
      constructor
      · intro m hm
        cases hm
        obtain ⟨h1, h2, h3, h4⟩ := hsome c rfl
        exact ⟨le_trans hstartlo h1, h2, h1, h3, h4⟩
      · refine iff_of_false (by simp) ?_
        intro hall
        exact absurd (hnone.mpr hall) (by simp)
  | none =>
      dsimp only
      constructor
      · intro m hm
        exact absurd hm (by simp)
      · simpa using hnone

/-- Witness for the amended C3 at an empty table with `next_channel =
0x4000`. -/
theorem new_channel_to_peer_spec_witness :
    ((ChannelBindings.mk [] 0x4000).new_channel_to_peer (.v4 1) 0).1 = none ↔
      ∀ k, (if (ChannelBindings.mk [] 0x4000).next_channel =
          ChannelBindings.LAST_CHANNEL then ChannelBindings.FIRST_CHANNEL
          else (ChannelBindings.mk [] 0x4000).next_channel) ≤ k →
        k < ChannelBindings.LAST_CHANNEL →
        slotBlocked (ChannelBindings.mk [] 0x4000).inner 0 k :=
  (new_channel_to_peer_spec (ChannelBindings.mk [] 0x4000) (.v4 1) 0
    (by decide) (by decide)).2

/-- The clock of an allocation never decreases below the `now` passed to
`update_now`. -/
theorem update_now_last_now_ge (a : Allocation) (now : Nat) :
    now ≤ (a.update_now now).last_now := by
  unfold Allocation.update_now
  split
  · omega
  · exact le_refl now

/-- Advancing the clock changes none of the predicates that guard
`bind_channel`. -/
theorem update_now_guards (a : Allocation) (now : Nat) :
    (a.update_now now).is_suspended = a.is_suspended ∧
    (a.update_now now).channel_bindings = a.channel_bindings ∧
    (∀ p, (a.update_now now).channel_binding_in_flight_by_peer p =
      a.channel_binding_in_flight_by_peer p) ∧
    (a.update_now now).has_allocation = a.has_allocation ∧
    (∀ p, (a.update_now now).can_relay_to p = a.can_relay_to p) ∧
    (a.update_now now).buffered_channel_bindings = a.buffered_channel_bindings ∧
    (a.update_now now).buffered_transmits = a.buffered_transmits ∧
    (a.update_now now).sent_requests = a.sent_requests := by
  unfold Allocation.update_now
  split
  · exact ⟨rfl, rfl, fun _ => rfl, rfl, fun _ => rfl, rfl, rfl, rfl⟩
  · exact ⟨rfl, rfl, fun _ => rfl, rfl, fun _ => rfl, rfl, rfl, rfl⟩

/-- A suspended allocation ignores `bind_channel`. -/
theorem bind_channel_suspended (a : Allocation) (peer : SocketAddr) (now : Nat)
    (h : a.is_suspended = true) : a.bind_channel peer now = a := by
  unfold Allocation.bind_channel
  simp [h]

/-- With a valid bound channel to the peer, `bind_channel` only advances the
clock. -/
theorem bind_channel_has_channel (a : Allocation) (peer : SocketAddr) (now : Nat)
    (hsusp : a.is_suspended = false)
    (hc2p : (a.channel_bindings.channel_to_peer peer now).isSome) :
    a.bind_channel peer now = a.update_now now := by
  obtain ⟨-, hcb, -, -, -, -, -, -⟩ := update_now_guards a now
  unfold Allocation.bind_channel
  simp [hsusp, hcb, hc2p]

/-- With a channel-bind already in flight or buffered for the peer,
`bind_channel` only advances the clock. -/
theorem bind_channel_inflight (a : Allocation) (peer : SocketAddr) (now : Nat)
    (hsusp : a.is_suspended = false)
    (hc2p : a.channel_bindings.channel_to_peer peer now = none)
    (hinf : a.channel_binding_in_flight_by_peer peer = true) :
    a.bind_channel peer now = a.update_now now := by
  obtain ⟨-, hcb, hinfp, -, -, -, -, -⟩ := update_now_guards a now
  unfold Allocation.bind_channel
  simp [hsusp, hcb, hc2p, hinfp, hinf]

/-- Without an allocation, `bind_channel` defers the intent into the ring. -/
theorem bind_channel_buffers (a : Allocation) (peer : SocketAddr) (now : Nat)
    (hsusp : a.is_suspended = false)
    (hc2p : a.channel_bindings.channel_to_peer peer now = none)
    (hinf : a.channel_binding_in_flight_by_peer peer = false)
    (halloc : a.has_allocation = false) :
    a.bind_channel peer now =
      { a.update_now now with
        buffered_channel_bindings := a.buffered_channel_bindings.push peer } := by
  obtain ⟨-, hcb, hinfp, hall, -, hring, -, -⟩ := update_now_guards a now
  unfold Allocation.bind_channel
  simp [hsusp, hcb, hc2p, hinfp, hinf, hall, halloc, hring]

/-- With an allocation that cannot relay to the peer's family,
`bind_channel` only advances the clock. -/
theorem bind_channel_no_relay (a : Allocation) (peer : SocketAddr) (now : Nat)
    (hsusp : a.is_suspended = false)
    (hc2p : a.channel_bindings.channel_to_peer peer now = none)
    (hinf : a.channel_binding_in_flight_by_peer peer = false)
    (halloc : a.has_allocation = true)
    (hrelay : a.can_relay_to peer = false) :
    a.bind_channel peer now = a.update_now now := by
  obtain ⟨-, hcb, hinfp, hall, hcan, -, -, -⟩ := update_now_guards a now
  unfold Allocation.bind_channel
  simp [hsusp, hcb, hc2p, hinfp, hinf, hall, halloc, hcan, hrelay]

/-- When the scan finds a channel, `bind_channel` installs it and runs the
authenticated queueing step. -/
theorem bind_channel_scan_some (a : Allocation) (peer : SocketAddr)
    (now c : Nat)
    (hsusp : a.is_suspended = false)
    (hc2p : a.channel_bindings.channel_to_peer peer now = none)
    (hinf : a.channel_binding_in_flight_by_peer peer = false)
    (halloc : a.has_allocation = true)
    (hrelay : a.can_relay_to peer = true)
    (hscan : (a.channel_bindings.new_channel_to_peer peer now).1 = some c) :
    a.bind_channel peer now =
      (Allocation.authenticate_and_queue
        { a.update_now now with
          channel_bindings := (a.channel_bindings.new_channel_to_peer peer now).2 }
        (make_channel_bind_request peer c)).2 := by
  obtain ⟨-, hcb, hinfp, hall, hcan, -, -, -⟩ := update_now_guards a now
  unfold Allocation.bind_channel
  rcases hp : a.channel_bindings.new_channel_to_peer peer now with ⟨o, cb2⟩
  rw [hp] at hscan
  cases hscan
  simp [hsusp, hcb, hc2p, hinfp, hinf, hall, halloc, hcan, hrelay, hp]

/-- When the scan is exhausted, `bind_channel` only records the advanced
`next_channel` and queues nothing. -/
theorem bind_channel_scan_none (a : Allocation) (peer : SocketAddr) (now : Nat)
    (hsusp : a.is_suspended = false)
    (hc2p : a.channel_bindings.channel_to_peer peer now = none)
    (hinf : a.channel_binding_in_flight_by_peer peer = false)
    (halloc : a.has_allocation = true)
    (hrelay : a.can_relay_to peer = true)
    (hscan : (a.channel_bindings.new_channel_to_peer peer now).1 = none) :
    a.bind_channel peer now =
      { a.update_now now with
        channel_bindings := (a.channel_bindings.new_channel_to_peer peer now).2 } := by
  obtain ⟨-, hcb, hinfp, hall, hcan, -, -, -⟩ := update_now_guards a now
  unfold Allocation.bind_channel
  rcases hp : a.channel_bindings.new_channel_to_peer peer now with ⟨o, cb2⟩
  rw [hp] at hscan
  cases hscan
  simp [hsusp, hcb, hc2p, hinfp, hinf, hall, halloc, hcan, hrelay, hp]

/-- Inserting a freshly scanned, unbound channel cannot create a connected
channel for any peer. -/
theorem channel_to_peer_insert_unbound (cb : ChannelBindings)
    (peer p2 : SocketAddr) (now c bat lr : Nat)
    (h : cb.channel_to_peer p2 now = none) :
    (ChannelBindings.insert { cb with next_channel := c } c
      { peer := peer, bound := false, bound_at := bat, last_received := lr
        }).channel_to_peer p2 now = none := by
  simp only [ChannelBindings.channel_to_peer, Option.map_eq_none',
    List.find?_eq_none] at h ⊢
  intro e he
  simp only [ChannelBindings.insert, List.mem_append, List.mem_filter,
    List.mem_singleton] at he
  rcases he with hemem | heq
  · exact h e hemem.1
  · subst heq
    simp [Channel.connected_to_peer]

/-- When the scan succeeds, the new binding table is the old one with an
unbound channel installed at the returned number. -/
theorem new_channel_to_peer_of_some (cb : ChannelBindings) (peer : SocketAddr)
    (now c : Nat)
    (hscan : (cb.new_channel_to_peer peer now).1 = some c) :
    (cb.new_channel_to_peer peer now).2 =
      ChannelBindings.insert { cb with next_channel := c } c
        { peer := peer, bound := false, bound_at := now, last_received := now } := by
  simp only [ChannelBindings.new_channel_to_peer] at hscan ⊢
  rcases hs : ChannelBindings.scan cb.inner now
      (if cb.next_channel = ChannelBindings.LAST_CHANNEL then
        ChannelBindings.FIRST_CHANNEL else cb.next_channel) with ⟨o, fin⟩
  rw [hs] at hscan
  cases o with
  | some v =>
      dsimp only at hscan ⊢
      cases hscan
      rfl
  | none => simp at hscan

/-- The authenticated form of a channel-bind request keeps its method and
its XOR-PEER-ADDRESS attribute. -/
theorem authed_channel_bind (a : Allocation) (peer : SocketAddr) (c : Nat) :
    (a.authenticate (make_channel_bind_request peer c)).method = .channelBind ∧
    (a.authenticate (make_channel_bind_request peer c)).getXorPeerAddress =
      some peer := by
  refine ⟨rfl, ?_⟩
  simp [Allocation.authenticate, make_channel_bind_request,
    StunMessage.getXorPeerAddress]

/-- Pushing an element into the ring makes `contains` hold for it. -/
theorem ring_push_contains (r : RingBuffer SocketAddr) (x : SocketAddr) :
    (r.push x).contains x = true := by
  unfold RingBuffer.push RingBuffer.contains
  split <;> simp

/-- An allocation that still holds a relay address is never suspended. -/
theorem is_suspended_false_of_alloc (a : Allocation)
    (h : a.has_allocation = true) : a.is_suspended = false := by
  simp [Allocation.is_suspended, h]

/-- `authenticate_and_queue` changes neither the candidates nor the channel
state nor the clock. -/
theorem authenticate_and_queue_fields (a : Allocation) (m : StunMessage) :
    ((a.authenticate_and_queue m).2).ip4_allocation = a.ip4_allocation ∧
    ((a.authenticate_and_queue m).2).ip6_allocation = a.ip6_allocation ∧
    ((a.authenticate_and_queue m).2).channel_bindings = a.channel_bindings ∧
    ((a.authenticate_and_queue m).2).buffered_channel_bindings =
      a.buffered_channel_bindings ∧
    ((a.authenticate_and_queue m).2).last_now = a.last_now := by
  unfold Allocation.authenticate_and_queue
  rcases a.backoff.next_backoff with ⟨o, b2⟩
  cases o <;> exact ⟨rfl, rfl, rfl, rfl, rfl⟩

/-- `authenticate_and_queue` declines exactly when the backoff clock has
exhausted its maximum elapsed time. -/
theorem authenticate_and_queue_false_iff (a : Allocation) (m : StunMessage) :
    (a.authenticate_and_queue m).1 = false ↔
      BACKOFF_MAX_ELAPSED ≤ a.backoff.now - a.backoff.startedAt := by
  unfold Allocation.authenticate_and_queue ExponentialBackoff.next_backoff
  by_cases hc : BACKOFF_MAX_ELAPSED ≤ a.backoff.now - a.backoff.startedAt <;>
    simp [hc]

/-- A declined `authenticate_and_queue` leaves the allocation unchanged. -/
theorem authenticate_and_queue_of_false (a : Allocation) (m : StunMessage)
    (h : (a.authenticate_and_queue m).1 = false) :
    (a.authenticate_and_queue m).2 = a := by
  unfold Allocation.authenticate_and_queue ExponentialBackoff.next_backoff at h ⊢
  by_cases hc : BACKOFF_MAX_ELAPSED ≤ a.backoff.now - a.backoff.startedAt
  · simp [hc]
  · simp [hc] at h

/-- After queueing an authenticated channel-bind for a peer, a channel-bind
is in flight for that peer. -/
theorem inflight_after_queue (a : Allocation) (peer : SocketAddr) (c : Nat)
    (hq : (a.authenticate_and_queue (make_channel_bind_request peer c)).1 =
      true) :
    ((a.authenticate_and_queue
      (make_channel_bind_request peer c)).2).channel_binding_in_flight_by_peer
        peer = true := by
  obtain ⟨hm, hx⟩ := authed_channel_bind a peer c
  unfold Allocation.authenticate_and_queue at hq ⊢
  rcases hb : a.backoff.next_backoff with ⟨o, b2⟩
  rw [hb] at hq
  cases o with
  | none => simp at hq
  | some i =>
      dsimp only
      unfold Allocation.channel_binding_in_flight_by_peer
      dsimp only
      simp [List.any_append, hm, hx]

/-- A live, non-rebindable channel to a third-party peer, used by the
channel-scan-exhaustion scenario. -/
def c7Channel : Channel :=
  { peer := .v4 7, bound := true, bound_at := 0, last_received := 0 }

/-- An allocation with a live IPv4 relay, slot 0x4FFE occupied by
`c7Channel`, and `next_channel` sitting at 0x4FFE: the next scan is
exhausted immediately. -/
def c7State : Allocation :=
  { server := .v4 1,
    last_srflx_candidate := none,
    ip4_allocation := some (.relayed (.v4 60)),
    ip6_allocation := none,
    allocation_lifetime := some (0, 600000),
    buffered_transmits := [],
    events := [],
    backoff := { now := 0, startedAt := 0, step := 0 },
    sent_requests := [],
    channel_bindings := { inner := [(0x4FFE, c7Channel)], next_channel := 0x4FFE },
    buffered_channel_bindings := { capacity := 100, items := [] },
    last_now := 0,
    username := "u", password := "p", realm := "r",
    nonce := none,
    nextId := 0 }

/-- C7 counterexample: on `c7State` the first `bind_channel` exhausts the
channel scan and sends nothing, leaving `next_channel` at 0x4FFF; the
immediate second call restarts the scan at 0x4000, finds a free slot and
queues a CHANNEL_BIND — an additional buffered transmit, so `bind_channel`
is not idempotent. -/
theorem bind_channel_not_idempotent_counterexample :
    (c7State.bind_channel (.v4 5) 0).buffered_transmits = [] ∧
    ((c7State.bind_channel (.v4 5) 0).bind_channel (.v4 5)
      0).buffered_transmits.length = 1 := by
  have h2 : ([(0x4FFE, c7Channel)].lookup 0x4FFE) = some c7Channel := by decide
  have h3 : c7Channel.can_rebind 0 = false := by decide
  have hs1 : ChannelBindings.scan [(0x4FFE, c7Channel)] 0 0x4FFE =
      (none, 0x4FFF) := by
    unfold ChannelBindings.scan
    rw [h2]
    simp [h3, ChannelBindings.LAST_CHANNEL]
  have hcb : c7State.channel_bindings =
      ChannelBindings.mk [(0x4FFE, c7Channel)] 0x4FFE := rfl
  have h1 : (0x4FFE : Nat) ≠ ChannelBindings.LAST_CHANNEL := by decide
  have hfull : c7State.channel_bindings.new_channel_to_peer (.v4 5) 0 =
      (none, ChannelBindings.mk [(0x4FFE, c7Channel)] 0x4FFF) := by
    rw [hcb]
    unfold ChannelBindings.new_channel_to_peer
    simp only [h1, if_false, hs1]
  have hscan1 : (c7State.channel_bindings.new_channel_to_peer (.v4 5) 0).1 =
      none := by rw [hfull]
  have hfirst := bind_channel_scan_none c7State (.v4 5) 0 (by decide) (by decide)
    (by decide) (by decide) (by decide) hscan1
  have hupd : c7State.update_now 0 = c7State := update_now_of_le c7State 0 (by decide)
  have hA1 : c7State.bind_channel (.v4 5) 0 =
      { c7State with
        channel_bindings := ChannelBindings.mk [(0x4FFE, c7Channel)] 0x4FFF } := by
    rw [hfirst, hupd, hfull]
  refine ⟨by rw [hA1]; rfl, ?_⟩
  have hl : ([(0x4FFE, c7Channel)].lookup 0x4000) = none := by decide
  have hs2 : ChannelBindings.scan [(0x4FFE, c7Channel)] 0 0x4000 =
      (some 0x4000, 0x4000) := by
    unfold ChannelBindings.scan
    rw [hl]
  have hscan2 : ((ChannelBindings.mk [(0x4FFE, c7Channel)]
      0x4FFF).new_channel_to_peer (.v4 5) 0).1 = some 0x4000 := by
    unfold ChannelBindings.new_channel_to_peer
    simp [ChannelBindings.LAST_CHANNEL, ChannelBindings.FIRST_CHANNEL, hs2]
  rw [hA1]
  have hsecond := bind_channel_scan_some
    ({ c7State with
      channel_bindings := ChannelBindings.mk [(0x4FFE, c7Channel)] 0x4FFF } :
      Allocation) (.v4 5) 0 0x4000 (by decide) (by decide) (by decide)
    (by decide) (by decide) hscan2
  rw [hsecond]
  rw [update_now_of_le _ 0 (by decide)]
  unfold Allocation.authenticate_and_queue ExponentialBackoff.next_backoff
  simp [c7State, BACKOFF_MAX_ELAPSED]

/-- C7 (amended): `bind_channel(p, now)` is idempotent provided the first
call does not run into an exhausted channel scan — i.e. unless the
allocation is live, relays to `p`, has no channel or in-flight bind for `p`,
and the scan from `next_channel` finds no free slot.  In that case the
second call adds no buffered transmit and no buffered channel-bind intent.
(Without the proviso this fails: see the counterexample.) -/
theorem bind_channel_idempotent (a : Allocation) (peer : SocketAddr) (now : Nat)
    (hnx : ¬(a.is_suspended = false ∧
      a.channel_bindings.channel_to_peer peer now = none ∧
      a.channel_binding_in_flight_by_peer peer = false ∧
      a.has_allocation = true ∧
      a.can_relay_to peer = true ∧
      (a.channel_bindings.new_channel_to_peer peer now).1 = none)) :
    ((a.bind_channel peer now).bind_channel peer now).buffered_transmits =
      (a.bind_channel peer now).buffered_transmits ∧
    ((a.bind_channel peer now).bind_channel peer
      now).buffered_channel_bindings =
      (a.bind_channel peer now).buffered_channel_bindings := by
  obtain ⟨hg1, hg2, hg3, hg4, hg5, hg6, hg7, hg8⟩ := update_now_guards a now
  have hbl : now ≤ (a.update_now now).last_now := update_now_last_now_ge a now
  cases hsusp : a.is_suspended with
  | true =>
      have h := bind_channel_suspended a peer now hsusp
      rw [h, h]
      exact ⟨rfl, rfl⟩
  | false =>
      have hbsusp : (a.update_now now).is_suspended = false := by
        rw [hg1]; exact hsusp
      rcases hc2p : a.channel_bindings.channel_to_peer peer now with _ | ch
      case some =>
        have hso : (a.channel_bindings.channel_to_peer peer now).isSome := by
          rw [hc2p]; rfl
        have h1 := bind_channel_has_channel a peer now hsusp hso
        have hso2 : ((a.update_now now).channel_bindings.channel_to_peer peer
            now).isSome := by rw [hg2]; exact hso
        have h2 := bind_channel_has_channel (a.update_now now) peer now hbsusp hso2
        rw [h1, h2, update_now_of_le _ now hbl]
        exact ⟨rfl, rfl⟩
      case none =>
      cases hinf : a.channel_binding_in_flight_by_peer peer with
      | true =>
          have h1 := bind_channel_inflight a peer now hsusp hc2p hinf
          have hc2pb : (a.update_now now).channel_bindings.channel_to_peer peer
              now = none := by rw [hg2]; exact hc2p
          have hinfb : (a.update_now now).channel_binding_in_flight_by_peer
              peer = true := by rw [hg3 peer]; exact hinf
          have h2 := bind_channel_inflight (a.update_now now) peer now hbsusp
            hc2pb hinfb
          rw [h1, h2, update_now_of_le _ now hbl]
          exact ⟨rfl, rfl⟩
      | false =>
      cases halloc : a.has_allocation with
      | false =>
          have h1 := bind_channel_buffers a peer now hsusp hc2p hinf halloc
          have hsusp1 : (a.bind_channel peer now).is_suspended = false := by
            rw [h1]; exact hbsusp
          have hc2pb : (a.update_now now).channel_bindings.channel_to_peer peer
              now = none := by rw [hg2]; exact hc2p
          have hc2p1 : (a.bind_channel peer now).channel_bindings.channel_to_peer
              peer now = none := by rw [h1]; exact hc2pb
          have hinf1 : (a.bind_channel peer now).channel_binding_in_flight_by_peer
              peer = true := by
            rw [h1]
            simp [Allocation.channel_binding_in_flight_by_peer, ring_push_contains]
          have hl1 : now ≤ (a.bind_channel peer now).last_now := by
            rw [h1]; exact hbl
          have h2 := bind_channel_inflight (a.bind_channel peer now) peer now
            hsusp1 hc2p1 hinf1
          rw [h2, update_now_of_le _ now hl1]
          exact ⟨rfl, rfl⟩
      | true =>
      cases hrelay : a.can_relay_to peer with
      | false =>
          have h1 := bind_channel_no_relay a peer now hsusp hc2p hinf halloc hrelay
          have hc2pb : (a.update_now now).channel_bindings.channel_to_peer peer
              now = none := by rw [hg2]; exact hc2p
          have hinfb : (a.update_now now).channel_binding_in_flight_by_peer
              peer = false := by rw [hg3 peer]; exact hinf
          have hallocb : (a.update_now now).has_allocation = true := by
            rw [hg4]; exact halloc
          have hrelayb : (a.update_now now).can_relay_to peer = false := by
            rw [hg5 peer]; exact hrelay
          have h2 := bind_channel_no_relay (a.update_now now) peer now hbsusp
            hc2pb hinfb hallocb hrelayb
          rw [h1, h2, update_now_of_le _ now hbl]
          exact ⟨rfl, rfl⟩
      | true =>
      rcases hscan : (a.channel_bindings.new_channel_to_peer peer now).1
        with _ | c
      case none => exact absurd ⟨hsusp, hc2p, hinf, halloc, hrelay, hscan⟩ hnx
      case some =>
      have h1 := bind_channel_scan_some a peer now c hsusp hc2p hinf halloc
        hrelay hscan
      have hcb2none : ((a.channel_bindings.new_channel_to_peer peer
          now).2).channel_to_peer peer now = none := by
        rw [new_channel_to_peer_of_some a.channel_bindings peer now c hscan]
        exact channel_to_peer_insert_unbound a.channel_bindings peer peer now
          c now now hc2p
      obtain ⟨hf1, hf2, hf3, hf4, hf5⟩ := authenticate_and_queue_fields
        ({ a.update_now now with
          channel_bindings := (a.channel_bindings.new_channel_to_peer peer
            now).2 } : Allocation) (make_channel_bind_request peer c)
      have hupda : (a.update_now now).has_allocation = true := by
        rw [hg4]; exact halloc
      have ha1alloc : (a.bind_channel peer now).has_allocation = true := by
        rw [h1]
        unfold Allocation.has_allocation
        rw [hf1, hf2]
        unfold Allocation.has_allocation at hupda
        exact hupda
      have ha1susp : (a.bind_channel peer now).is_suspended = false :=
        is_suspended_false_of_alloc _ ha1alloc
      have ha1last : now ≤ (a.bind_channel peer now).last_now := by
        rw [h1, hf5]; exact hbl
      have ha1c2p : (a.bind_channel peer now).channel_bindings.channel_to_peer
          peer now = none := by
        rw [h1, hf3]; exact hcb2none
      cases hq : (Allocation.authenticate_and_queue
        ({ a.update_now now with
          channel_bindings := (a.channel_bindings.new_channel_to_peer peer
            now).2 } : Allocation) (make_channel_bind_request peer c)).1 with
      | true =>
          have ha1inf : (a.bind_channel peer
              now).channel_binding_in_flight_by_peer peer = true := by
            rw [h1]; exact inflight_after_queue _ peer c hq
          have h2 := bind_channel_inflight (a.bind_channel peer now) peer now
            ha1susp ha1c2p ha1inf
          rw [h2, update_now_of_le _ now ha1last]
          exact ⟨rfl, rfl⟩
      | false =>
          have hres := authenticate_and_queue_of_false _ _ hq
          rw [hres] at h1
          have ha1inf : (a.bind_channel peer
              now).channel_binding_in_flight_by_peer peer = false := by
            rw [h1]
            have hinfb : (a.update_now now).channel_binding_in_flight_by_peer
                peer = false := by rw [hg3 peer]; exact hinf
            exact hinfb
          have ha1relay : (a.bind_channel peer now).can_relay_to peer = true := by
            rw [h1]
            have hrelayb : (a.update_now now).can_relay_to peer = true := by
              rw [hg5 peer]; exact hrelay
            exact hrelayb
          rcases hscan2 : ((a.bind_channel peer
              now).channel_bindings.new_channel_to_peer peer now).1 with _ | c2
          case none =>
            have h2 := bind_channel_scan_none (a.bind_channel peer now) peer
              now ha1susp ha1c2p ha1inf ha1alloc ha1relay hscan2
            rw [h2, update_now_of_le _ now ha1last]
            exact ⟨rfl, rfl⟩
          case some =>
            have h2 := bind_channel_scan_some (a.bind_channel peer now) peer
              now c2 ha1susp ha1c2p ha1inf ha1alloc ha1relay hscan2
            rw [update_now_of_le _ now ha1last] at h2
            have hqb := (authenticate_and_queue_false_iff _ _).mp hq
            have hq2 : (Allocation.authenticate_and_queue
                ({ a.bind_channel peer now with
                  channel_bindings := ((a.bind_channel peer
                    now).channel_bindings.new_channel_to_peer peer now).2 } :
                  Allocation) (make_channel_bind_request peer c2)).1 = false := by
              rw [authenticate_and_queue_false_iff]
              rw [h1]
              exact hqb
            have hres2 := authenticate_and_queue_of_false _ _ hq2
            rw [hres2] at h2
            rw [h2]
            exact ⟨rfl, rfl⟩

/-- Witness for the amended C7: a fresh allocation (no relay address yet)
defers the intent on the first call and the second call changes nothing. -/
theorem bind_channel_idempotent_witness :
    ((((Allocation.new (.v4 1) "u" "p" "r" 0).bind_channel (.v4 2)
        0).bind_channel (.v4 2) 0).buffered_transmits =
      ((Allocation.new (.v4 1) "u" "p" "r" 0).bind_channel (.v4 2)
        0).buffered_transmits) ∧
    ((((Allocation.new (.v4 1) "u" "p" "r" 0).bind_channel (.v4 2)
        0).bind_channel (.v4 2) 0).buffered_channel_bindings =
      ((Allocation.new (.v4 1) "u" "p" "r" 0).bind_channel (.v4 2)
        0).buffered_channel_bindings) :=
  bind_channel_idempotent (Allocation.new (.v4 1) "u" "p" "r" 0) (.v4 2) 0
    (fun h => absurd h.2.2.2.1 (by decide))

/-- A lookup misses exactly when no entry carries the key. -/
theorem lookup_eq_none_iff (l : List (Nat × Channel)) (k : Nat) :
    l.lookup k = none ↔ ∀ e ∈ l, e.1 ≠ k := by
  induction l with
  | nil => simp [List.lookup]
  | cons e es ih =>
      rcases e with ⟨k2, v⟩
      by_cases hk : k = k2
      · subst hk
        simp [List.lookup]
      · have hbe : (k == k2) = false := by simp [hk]
        simp only [List.lookup, hbe, ih]
        constructor
        · intro hall e he
          rcases List.mem_cons.mp he with heq | hmem
          · subst heq
            exact fun hh => hk hh.symm
          · exact hall e hmem
        · intro hall e he
          exact hall e (List.mem_cons_of_mem _ he)

/-- A table holding only unbound channels is connected to no peer. -/
theorem channel_to_peer_none_of_unbound (cb : ChannelBindings) (p : SocketAddr)
    (now : Nat) (h : ∀ e ∈ cb.inner, e.2.bound = false) :
    cb.channel_to_peer p now = none := by
  simp only [ChannelBindings.channel_to_peer, Option.map_eq_none',
    List.find?_eq_none]
  intro e he
  simp [Channel.connected_to_peer, h e he]

/-- With the backoff below its elapsed maximum, `authenticate_and_queue`
queues the authenticated message and records the transaction. -/
theorem authenticate_and_queue_of_true (a : Allocation) (m : StunMessage)
    (h : a.backoff.now - a.backoff.startedAt < BACKOFF_MAX_ELAPSED) :
    (a.authenticate_and_queue m).1 = true ∧
    (a.authenticate_and_queue m).2 = { a with
      backoff := { a.backoff with step := a.backoff.step + 1 },
      nextId := a.nextId + 1,
      sent_requests := a.sent_requests.filter
        (fun r => r.tid ≠ (a.authenticate m).transactionId)
        ++ [{ tid := (a.authenticate m).transactionId,
              request := a.authenticate m,
              sent_at := a.last_now,
              backoff := ExponentialBackoff.interval a.backoff.step }],
      buffered_transmits := a.buffered_transmits
        ++ [{ dst := a.server, payload := a.authenticate m }] } := by
  have hc : ¬ BACKOFF_MAX_ELAPSED ≤ a.backoff.now - a.backoff.startedAt := by
    omega
  unfold Allocation.authenticate_and_queue ExponentialBackoff.next_backoff
  simp [hc]

/-- One step of the buffered-intent drain loop: pop the oldest peer and
re-run `bind_channel` on the popped state. -/
theorem drainBuffered_cons (a : Allocation) (now fuel : Nat) (p : SocketAddr)
    (rest : List SocketAddr)
    (h : a.buffered_channel_bindings.items = p :: rest) :
    Allocation.drainBuffered a now (fuel + 1) =
      Allocation.drainBuffered
        (({ a with buffered_channel_bindings :=
          { a.buffered_channel_bindings with items := rest } } :
          Allocation).bind_channel p now) now fuel := by
  have hpop : a.buffered_channel_bindings.pop =
      (some p, { a.buffered_channel_bindings with items := rest }) := by
    unfold RingBuffer.pop
    rw [h]
  simp only [Allocation.drainBuffered, hpop]

/-- Without an allocation, `bind_channel` never queues a transmit: the
intent is deferred (or dropped as duplicate) instead. -/
theorem bind_channel_no_alloc (a : Allocation) (peer : SocketAddr) (now : Nat)
    (halloc : a.has_allocation = false) :
    (a.bind_channel peer now).buffered_transmits = a.buffered_transmits := by
  obtain ⟨hg1, hg2, hg3, hg4, hg5, hg6, hg7, hg8⟩ := update_now_guards a now
  cases hsusp : a.is_suspended with
  | true => rw [bind_channel_suspended a peer now hsusp]
  | false =>
      rcases hc2p : a.channel_bindings.channel_to_peer peer now with _ | ch
      case some =>
        rw [bind_channel_has_channel a peer now hsusp (by rw [hc2p]; rfl), hg7]
      case none =>
      cases hinf : a.channel_binding_in_flight_by_peer peer with
      | true => rw [bind_channel_inflight a peer now hsusp hc2p hinf, hg7]
      | false =>
          rw [bind_channel_buffers a peer now hsusp hc2p hinf halloc]
          exact hg7

/-- The drain loop run over the buffered peers: each covered peer yields
exactly one queued CHANNEL_BIND carrying its address, uncovered peers are
dropped, FIFO order is kept, and the ring ends empty. -/
theorem drain_go (now : Nat) (items : List SocketAddr) :
    ∀ (a : Allocation),
    a.buffered_channel_bindings.items = items →
    items.Nodup →
    now ≤ a.last_now →
    a.has_allocation = true →
    a.backoff.now - a.backoff.startedAt < BACKOFF_MAX_ELAPSED →
    (∀ r ∈ a.sent_requests, ∀ p ∈ items,
      ¬(r.request.method = StunMethod.channelBind ∧
        r.request.getXorPeerAddress = some p)) →
    (∀ e ∈ a.channel_bindings.inner, e.2.bound = false) →
    (∀ k, a.channel_bindings.next_channel < k →
      a.channel_bindings.inner.lookup k = none) →
    a.channel_bindings.next_channel + items.length <
      ChannelBindings.LAST_CHANNEL →
    ∃ new,
      (Allocation.drainBuffered a now items.length).buffered_transmits =
        a.buffered_transmits ++ new ∧
      new.map (fun t => (t.payload.method, t.payload.getXorPeerAddress)) =
        (items.filter (fun p => a.can_relay_to p)).map
          (fun p => (StunMethod.channelBind, some p)) ∧
      (Allocation.drainBuffered a now
        items.length).buffered_channel_bindings.items = [] := by
  induction items with
  | nil =>
      intro a hitems hnd hln halloc hbk hsent hunb hfree hroom
      refine ⟨[], ?_, ?_, ?_⟩
      · simp [Allocation.drainBuffered]
      · simp
      · simp only [List.length_nil, Allocation.drainBuffered]
        exact hitems
  | cons p rest ih =>
      intro a hitems hnd hln halloc hbk hsent hunb hfree hroom
      obtain ⟨hpnotin, hndrest⟩ := List.nodup_cons.mp hnd
      have hroomc : a.channel_bindings.next_channel + (rest.length + 1) <
          ChannelBindings.LAST_CHANNEL := by
        simpa using hroom
      have hstep := drainBuffered_cons a now rest.length p rest hitems
      have hsusp : ({ a with buffered_channel_bindings :=
          { a.buffered_channel_bindings with items := rest } } :
          Allocation).is_suspended = false :=
        is_suspended_false_of_alloc _ halloc
      have hc2p : ({ a with buffered_channel_bindings :=
          { a.buffered_channel_bindings with items := rest } } :
          Allocation).channel_bindings.channel_to_peer p now = none :=
        channel_to_peer_none_of_unbound _ p now hunb
      have hanyf : List.any a.sent_requests (fun r =>
          r.request.method = StunMethod.channelBind &&
            r.request.getXorPeerAddress = some p) = false := by
        rw [List.any_eq_false]
        intro r hr
        have hno := hsent r hr p (List.mem_cons_self p rest)
        simp only [Bool.and_eq_true, decide_eq_true_eq]
        exact fun hc => hno hc
      have hcont : (RingBuffer.contains
          { a.buffered_channel_bindings with items := rest } p) = false := by
        simp [RingBuffer.contains, hpnotin]
      have hinf : ({ a with buffered_channel_bindings :=
          { a.buffered_channel_bindings with items := rest } } :
          Allocation).channel_binding_in_flight_by_peer p = false := by
        unfold Allocation.channel_binding_in_flight_by_peer
        rw [show ({ a with buffered_channel_bindings :=
          { a.buffered_channel_bindings with items := rest } } :
          Allocation).sent_requests = a.sent_requests from rfl]
        rw [hanyf]
        rw [show ({ a with buffered_channel_bindings :=
          { a.buffered_channel_bindings with items := rest } } :
          Allocation).buffered_channel_bindings =
          { a.buffered_channel_bindings with items := rest } from rfl]
        rw [hcont]
        rfl
      have hupd : ({ a with buffered_channel_bindings :=
          { a.buffered_channel_bindings with items := rest } } :
          Allocation).update_now now =
          ({ a with buffered_channel_bindings :=
          { a.buffered_channel_bindings with items := rest } } :
          Allocation) :=
        update_now_of_le _ now hln
      cases hrel : a.can_relay_to p with
      | false =>
          have h1 := bind_channel_no_relay ({ a with buffered_channel_bindings :=
            { a.buffered_channel_bindings with items := rest } } : Allocation)
            p now hsusp hc2p hinf halloc hrel
          rw [hupd] at h1
          have hsent2 : ∀ r ∈ a.sent_requests, ∀ q ∈ rest,
              ¬(r.request.method = StunMethod.channelBind ∧
                r.request.getXorPeerAddress = some q) :=
            fun r hr q hq => hsent r hr q (List.mem_cons_of_mem p hq)
          have hroom2 : a.channel_bindings.next_channel + rest.length <
              ChannelBindings.LAST_CHANNEL := by omega
          obtain ⟨new2, ht2, hm2, hr2⟩ := ih
            ({ a with buffered_channel_bindings :=
              { a.buffered_channel_bindings with items := rest } } : Allocation)
            rfl hndrest hln halloc hbk hsent2 hunb hfree hroom2
          refine ⟨new2, ?_, ?_, ?_⟩
          · rw [show (p :: rest).length = rest.length + 1 from rfl, hstep, h1, ht2]
          · rw [List.filter_cons_of_neg (by simp [hrel])]
            exact hm2
          · rw [show (p :: rest).length = rest.length + 1 from rfl, hstep, h1]
            exact hr2
      | true =>
          have hnne : a.channel_bindings.next_channel ≠
              ChannelBindings.LAST_CHANNEL := by omega
          have hscanex : ∃ c, ChannelBindings.scan a.channel_bindings.inner now
              a.channel_bindings.next_channel = (some c, c) ∧
              (c = a.channel_bindings.next_channel ∨
               c = a.channel_bindings.next_channel + 1) := by
            rcases hl : a.channel_bindings.inner.lookup
                a.channel_bindings.next_channel with _ | ch
            · refine ⟨a.channel_bindings.next_channel, ?_, Or.inl rfl⟩
              unfold ChannelBindings.scan
              rw [hl]
            · cases hcr : ch.can_rebind now with
              | true =>
                  refine ⟨a.channel_bindings.next_channel, ?_, Or.inl rfl⟩
                  unfold ChannelBindings.scan
                  rw [hl]
                  simp [hcr]
              | false =>
                  refine ⟨a.channel_bindings.next_channel + 1, ?_, Or.inr rfl⟩
                  have hl2 : a.channel_bindings.inner.lookup
                      (a.channel_bindings.next_channel + 1) = none :=
                    hfree _ (by omega)
                  have hnle : ¬ (ChannelBindings.LAST_CHANNEL ≤
                      a.channel_bindings.next_channel + 1) := by omega
                  have hs2 : ChannelBindings.scan a.channel_bindings.inner now
                      (a.channel_bindings.next_channel + 1) =
                      (some (a.channel_bindings.next_channel + 1),
                        a.channel_bindings.next_channel + 1) := by
                    unfold ChannelBindings.scan
                    rw [hl2]
                  unfold ChannelBindings.scan
                  rw [hl]
                  simp [hcr, hnle, hs2]
          obtain ⟨c, hscanc, hcbound⟩ := hscanex
          have hncp : ({ a with buffered_channel_bindings :=
              { a.buffered_channel_bindings with items := rest } } :
              Allocation).channel_bindings.new_channel_to_peer p now =
              (some c, ChannelBindings.insert
                { a.channel_bindings with next_channel := c } c
                { peer := p, bound := false, bound_at := now,
                  last_received := now }) := by
            show a.channel_bindings.new_channel_to_peer p now = _
            unfold ChannelBindings.new_channel_to_peer
            simp [hnne, hscanc]
          have hscan1 : (({ a with buffered_channel_bindings :=
              { a.buffered_channel_bindings with items := rest } } :
              Allocation).channel_bindings.new_channel_to_peer p now).1 =
              some c := by rw [hncp]
          have h1 := bind_channel_scan_some ({ a with buffered_channel_bindings :=
            { a.buffered_channel_bindings with items := rest } } : Allocation)
            p now c hsusp hc2p hinf halloc hrel hscan1
          rw [hupd, hncp] at h1
          obtain ⟨hq1, hq2⟩ := authenticate_and_queue_of_true
            ({ ({ a with buffered_channel_bindings :=
              { a.buffered_channel_bindings with items := rest } } : Allocation)
              with channel_bindings := ((some c, ChannelBindings.insert
                { a.channel_bindings with next_channel := c } c
                { peer := p, bound := false, bound_at := now,
                  last_received := now })).2 } : Allocation)
            (make_channel_bind_request p c) hbk
          rw [hq2] at h1
          -- invariants at the post-bind state
          have hitems2 : (({ a with buffered_channel_bindings :=
              { a.buffered_channel_bindings with items := rest } } :
              Allocation).bind_channel p now).buffered_channel_bindings.items =
              rest := by rw [h1]
          have hln2 : now ≤ (({ a with buffered_channel_bindings :=
              { a.buffered_channel_bindings with items := rest } } :
              Allocation).bind_channel p now).last_now := by
            rw [h1]; exact hln
          have halloc2 : (({ a with buffered_channel_bindings :=
              { a.buffered_channel_bindings with items := rest } } :
              Allocation).bind_channel p now).has_allocation = true := by
            rw [h1]; exact halloc
          have hbk2 : (({ a with buffered_channel_bindings :=
              { a.buffered_channel_bindings with items := rest } } :
              Allocation).bind_channel p now).backoff.now -
              (({ a with buffered_channel_bindings :=
              { a.buffered_channel_bindings with items := rest } } :
              Allocation).bind_channel p now).backoff.startedAt <
              BACKOFF_MAX_ELAPSED := by
            rw [h1]; exact hbk
          obtain ⟨hauthm, hauthx⟩ := authed_channel_bind
            ({ ({ a with buffered_channel_bindings :=
              { a.buffered_channel_bindings with items := rest } } : Allocation)
              with channel_bindings := ((some c, ChannelBindings.insert
                { a.channel_bindings with next_channel := c } c
                { peer := p, bound := false, bound_at := now,
                  last_received := now })).2 } : Allocation) p c
          have hsent2 : ∀ r ∈ (({ a with buffered_channel_bindings :=
              { a.buffered_channel_bindings with items := rest } } :
              Allocation).bind_channel p now).sent_requests, ∀ q ∈ rest,
              ¬(r.request.method = StunMethod.channelBind ∧
                r.request.getXorPeerAddress = some q) := by
            intro r hr q hq
            rw [h1] at hr
            rcases List.mem_append.mp hr with hrl | hrr
            · exact hsent r (List.mem_filter.mp hrl).1 q
                (List.mem_cons_of_mem p hq)
            · rw [List.mem_singleton] at hrr
              subst hrr
              intro hcon
              have : p = q := by
                have := hcon.2
                rw [hauthx] at this
                exact Option.some.inj this
              exact hpnotin (this ▸ hq)
          have hunb2 : ∀ e ∈ (({ a with buffered_channel_bindings :=
              { a.buffered_channel_bindings with items := rest } } :
              Allocation).bind_channel p now).channel_bindings.inner,
              e.2.bound = false := by
            intro e he
            rw [h1] at he
            simp only [ChannelBindings.insert, List.mem_append, List.mem_filter,
              List.mem_singleton] at he
            rcases he with hemem | heq
            · exact hunb e hemem.1
            · subst heq; rfl
          have hnext2 : (({ a with buffered_channel_bindings :=
              { a.buffered_channel_bindings with items := rest } } :
              Allocation).bind_channel p now).channel_bindings.next_channel =
              c := by rw [h1]; rfl
          have hfree2 : ∀ k, (({ a with buffered_channel_bindings :=
              { a.buffered_channel_bindings with items := rest } } :
              Allocation).bind_channel p now).channel_bindings.next_channel <
              k → (({ a with buffered_channel_bindings :=
              { a.buffered_channel_bindings with items := rest } } :
              Allocation).bind_channel p
              now).channel_bindings.inner.lookup k = none := by
            intro k hk
            rw [hnext2] at hk
            rw [h1]
            rw [lookup_eq_none_iff]
            intro e he
            simp only [ChannelBindings.insert, List.mem_append, List.mem_filter,
              List.mem_singleton] at he
            rcases he with hemem | heq
            · intro hek
              have hkn : a.channel_bindings.next_channel < k := by
                rcases hcbound with hc1 | hc1 <;> omega
              have := (lookup_eq_none_iff a.channel_bindings.inner k).mp
                (hfree k hkn) e hemem.1
              exact this hek
            · subst heq
              intro hck
              exact absurd hck.symm (by omega)
          have hroom2 : (({ a with buffered_channel_bindings :=
              { a.buffered_channel_bindings with items := rest } } :
              Allocation).bind_channel p now).channel_bindings.next_channel +
              rest.length < ChannelBindings.LAST_CHANNEL := by
            rw [hnext2]
            rcases hcbound with hc1 | hc1 <;> omega
          obtain ⟨new2, ht2, hm2, hr2⟩ := ih
            (({ a with buffered_channel_bindings :=
              { a.buffered_channel_bindings with items := rest } } :
              Allocation).bind_channel p now)
            hitems2 hndrest hln2 halloc2 hbk2 hsent2 hunb2 hfree2 hroom2
          refine ⟨{ dst := a.server,
                    payload := Allocation.authenticate
                      ({ ({ a with buffered_channel_bindings :=
                        { a.buffered_channel_bindings with items := rest } } :
                        Allocation) with channel_bindings := ((some c,
                        ChannelBindings.insert
                          { a.channel_bindings with next_channel := c } c
                          { peer := p, bound := false, bound_at := now,
                            last_received := now })).2 } : Allocation)
                      (make_channel_bind_request p c) } :: new2, ?_, ?_, ?_⟩
          · rw [show (p :: rest).length = rest.length + 1 from rfl, hstep, ht2,
              h1]
            dsimp only
            rw [List.append_assoc]
            rfl
          · rw [List.filter_cons_of_pos (by simp [hrel])]
            simp only [List.map_cons]
            have hfil : rest.filter (fun q =>
                (({ a with buffered_channel_bindings :=
                  { a.buffered_channel_bindings with items := rest } } :
                  Allocation).bind_channel p now).can_relay_to q) =
                rest.filter (fun q => a.can_relay_to q) := by
              rw [h1]; rfl
            rw [hfil] at hm2
            rw [hm2]
            congr 1
          · rw [show (p :: rest).length = rest.length + 1 from rfl, hstep]
            exact hr2

/-- C6: before any allocation exists, `bind_channel` queues no transmit —
the intent is deferred (or dropped as a duplicate); and the drain loop run
on ALLOCATE success (the loop body of `Allocation::handle_input` embedded as
`drainBuffered`) pops the deferred peers in FIFO order, producing exactly
one CHANNEL_BIND whose XOR-PEER-ADDRESS is the buffered peer for each peer
whose family is covered by a relayed candidate, silently dropping peers of
an uncovered family, and leaving the ring empty.  The drain hypotheses
capture the state on arrival of the ALLOCATE success: clock already
advanced, allocation live, backoff below its elapsed maximum, no
CHANNEL_BIND pending for the buffered peers, and a channel table whose
slots from `next_channel` on are free with room for every intent. -/
theorem deferred_channel_bind_drain :
    (∀ (a : Allocation) (peer : SocketAddr) (now : Nat),
      a.has_allocation = false →
      (a.bind_channel peer now).buffered_transmits = a.buffered_transmits) ∧
    (∀ (now : Nat) (items : List SocketAddr) (a : Allocation),
      a.buffered_channel_bindings.items = items →
      items.Nodup →
      now ≤ a.last_now →
      a.has_allocation = true →
      a.backoff.now - a.backoff.startedAt < BACKOFF_MAX_ELAPSED →
      (∀ r ∈ a.sent_requests, ∀ p ∈ items,
        ¬(r.request.method = StunMethod.channelBind ∧
          r.request.getXorPeerAddress = some p)) →
      (∀ e ∈ a.channel_bindings.inner, e.2.bound = false) →
      (∀ k, a.channel_bindings.next_channel < k →
        a.channel_bindings.inner.lookup k = none) →
      a.channel_bindings.next_channel + items.length <
        ChannelBindings.LAST_CHANNEL →
      ∃ new,
        (Allocation.drainBuffered a now items.length).buffered_transmits =
          a.buffered_transmits ++ new ∧
        new.map (fun t => (t.payload.method, t.payload.getXorPeerAddress)) =
          (items.filter (fun p => a.can_relay_to p)).map
            (fun p => (StunMethod.channelBind, some p)) ∧
        (Allocation.drainBuffered a now
          items.length).buffered_channel_bindings.items = []) :=
  ⟨bind_channel_no_alloc, drain_go⟩

/-- Drain-start state for the C6 witness: IPv4 relay only, two deferred
peers (one IPv4, one IPv6), empty channel table. -/
def c6State : Allocation :=
  { server := .v4 1,
    last_srflx_candidate := none,
    ip4_allocation := some (.relayed (.v4 60)),
    ip6_allocation := none,
    allocation_lifetime := some (0, 600000),
    buffered_transmits := [],
    events := [],
    backoff := { now := 0, startedAt := 0, step := 0 },
    sent_requests := [],
    channel_bindings := { inner := [], next_channel := 0x4000 },
    buffered_channel_bindings := { capacity := 100, items := [.v4 2, .v6 3] },
    last_now := 0,
    username := "u", password := "p", realm := "r",
    nonce := none,
    nextId := 0 }

/-- Witness for C6: a fresh allocation defers without transmitting, and the
drain on `c6State` binds the IPv4 peer and drops the IPv6 one. -/
theorem deferred_channel_bind_drain_witness :
    (((Allocation.new (.v4 1) "u" "p" "r" 0).bind_channel (.v4 2)
      0).buffered_transmits =
      (Allocation.new (.v4 1) "u" "p" "r" 0).buffered_transmits) ∧
    (∃ new,
      (Allocation.drainBuffered c6State 0
        [SocketAddr.v4 2, SocketAddr.v6 3].length).buffered_transmits =
        c6State.buffered_transmits ++ new ∧
      new.map (fun t => (t.payload.method, t.payload.getXorPeerAddress)) =
        ([SocketAddr.v4 2, SocketAddr.v6 3].filter
          (fun p => c6State.can_relay_to p)).map
          (fun p => (StunMethod.channelBind, some p)) ∧
      (Allocation.drainBuffered c6State 0
        [SocketAddr.v4 2, SocketAddr.v6 3].length).buffered_channel_bindings.items
        = []) :=
  ⟨deferred_channel_bind_drain.1 (Allocation.new (.v4 1) "u" "p" "r" 0)
    (.v4 2) 0 (by decide),
   deferred_channel_bind_drain.2 0 [SocketAddr.v4 2, SocketAddr.v6 3] c6State
    rfl (by decide) (by decide) (by decide) (by decide) (by simp [c6State])
    (by simp [c6State]) (fun k _ => rfl) (by decide)⟩

end Firezone
